import Mathlib

/-!
# onnxdemo: the inference demo as a trace-producing procedure

The C program `src/onnxdemo.c` is a straight-line client of the ONNX runtime C API.
It is embedded here as a function from the answers of the runtime (one answer per
call site, `OrtApi`) and the command line to the list of observable events the
process performs (`Proc.trace`) together with its return value (`Proc.val`, `none`
when the process was terminated by `abort` or `exit`).

Modelling conventions.
* A handle (`OrtEnv *`, `OrtSession *`, `OrtValue *`, ...) is a natural number, `0` is `NULL`.
* An `OrtStatus *` is `Option String`: `none` is the null status, `some msg` a failure whose
  message is `msg`.  A call of the API that returns a status answers `Except String α`.
* An `int` variable holds an integer between `INT_MIN` and `INT_MAX`; incrementing it past
  `INT_MAX` wraps around to `INT_MIN` (`to_int`), as the compiled program does. Comparing an
  `int` with a `size_t` converts it modulo `2^64` (`to_size_t`); comparing it with an
  `int64_t` keeps its value. `int64_t` and `size_t` values are mathematical integers.
* A loop that is never left has no end of its own: the model runs it for as many iterations
  as its bound plus one, which is enough to leave every loop that can be left, and reports
  whether it was left; when it was not, the process does not get past the loop.
* A variable-length array lives on the stack: whether the stack has room for it is an
  answer of the platform (`mask_fits`, `types_fits`); without room the process is killed.
* A read outside a data buffer yields what the buffer function gives at that offset.
* `assert` is active (the file does not define `NDEBUG`): a false assertion writes a
  diagnostic and aborts.
* `float` values are uninterpreted bit patterns; `printf` is recorded with its format
  string and its arguments, the text it produces is not computed.
* `GetApi` is taken to return a usable function table and `malloc` to succeed.
-/

namespace Onnxdemo

/-- A pointer to a runtime object; `0` is the null pointer. -/
abbrev Handle := Nat

/-- The null pointer. -/
def NULL : Handle := 0

/-- A `float`, as an uninterpreted bit pattern. -/
abbrev CFloat := Nat

/-- One `int64_t` memory cell: `none` while it has never been written. -/
abbrev Cell := Option Int

/-- Modelled from the spec: the constant `EXIT_FAILURE` of the C library header
`stdlib.h`, which is no part of the repository; the failure status is a non-zero exit
code, 1 on the usual platforms. -/
def EXIT_FAILURE : Int := 1

/-- The logging level the program passes to `CreateEnv`, a constant of the runtime header. -/
inductive OrtLoggingLevel where
  | ORT_LOGGING_LEVEL_WARNING
  deriving DecidableEq, Repr

/-- The value of `sizeof(int64_t)`. -/
def sizeof_int64_t : Nat := 8

/-- An argument given to `printf` after the format string. -/
inductive Arg where
  | int (i : Int)
  | float (x : CFloat)
  | str (s : String)
  deriving DecidableEq, Repr

/-- The API calls that return an `OrtStatus *`, with the arguments the program passes.
The last argument of `CreateTensorWithDataAsOrtValue` is the name of the variable whose
address receives the new tensor. -/
inductive Call where
  | CreateEnv (log_severity_level : OrtLoggingLevel) (logid : String)
  | CreateSessionOptions
  | CreateSession (env : Handle) (model_path : String) (options : Handle)
  | SessionGetInputCount (session : Handle)
  | SessionGetOutputCount (session : Handle)
  | CreateCpuMemoryInfo
  | CreateTensorWithDataAsOrtValue (info : Handle) (p_data : List Cell) (p_data_len : Nat)
      (shape : List Int) (shape_len : Nat) (out : String)
  | IsTensor (value : Handle)
  | Run (session : Handle) (input_names : List String) (inputs : List Handle) (input_len : Nat)
      (output_names : List String) (output_names_len : Nat)
  | GetTensorMutableData (value : Handle)
  | GetTensorTypeAndShape (value : Handle)
  | GetDimensionsCount (info : Handle)
  | GetDimensions (info : Handle) (dim_values_length : Nat)
  deriving DecidableEq, Repr

/-- What the process does that can be observed from outside, in program order. -/
inductive Event where
  | GetApi
  | call (c : Call) (status : Option String)
  | GetErrorMessage
  | ReleaseStatus
  | ReleaseMemoryInfo (h : Handle)
  | ReleaseValue (h : Handle)
  | ReleaseTensorTypeAndShapeInfo (h : Handle)
  | ReleaseSessionOptions (h : Handle)
  | ReleaseSession (h : Handle)
  | ReleaseEnv (h : Handle)
  | printf (format : String) (args : List Arg)
  | fprintf_stderr (format : String) (args : List Arg)
  | load (buffer : String) (index : Int)
  | malloc (size : Nat)
  | free (buffer : String)
  | assert_failed (expr : String)
  | stack_overflow (size : Nat)
  | abort
  | exit (status : Int)
  deriving DecidableEq, Repr

/-- The answers of the environment of the process, one per call site of the program (each
call site is executed at most once on a run): those of the runtime and, for the two
variable-length arrays, whether the stack has room for them.  `OrtApi` is quantified over
in every theorem, so any dependence of an answer on the arguments or on earlier calls is
covered. -/
structure OrtApi where
  CreateEnv : Except String Handle
  CreateSessionOptions : Except String Handle
  CreateSession : Except String Handle
  SessionGetInputCount : Except String Nat
  SessionGetOutputCount : Except String Nat
  CreateCpuMemoryInfo : Except String Handle
  CreateTensor_input_ids : Except String Handle
  IsTensor_input_ids : Except String Int
  mask_fits : Bool
  CreateTensor_attention_mask : Except String Handle
  IsTensor_attention_mask : Except String Int
  types_fits : Bool
  CreateTensor_token_type_ids : Except String Handle
  IsTensor_token_type_ids : Except String Int
  Run : Except String (Handle × Handle)
  GetTensorMutableData_0 : Except String (Int → CFloat)
  GetTensorTypeAndShape_0 : Except String Handle
  GetDimensionsCount_0 : Except String Nat
  GetDimensions_0 : Except String (Int × Int × Int)
  GetTensorMutableData_1 : Except String (Int → CFloat)
  GetTensorTypeAndShape_1 : Except String Handle
  GetDimensionsCount_1 : Except String Nat
  GetDimensions_1 : Except String (Int × Int)

/-- A run of a piece of the program: the events performed, and the value it returns
(`none` when the process has been terminated inside it). -/
structure Proc (α : Type) where
  trace : List Event
  val : Option α

/-- Sequencing: the second part runs only when the first returned. -/
def Proc.bind {α β : Type} (m : Proc α) (f : α → Proc β) : Proc β :=
  match m.val with
  | none => ⟨m.trace, none⟩
  | some a => ⟨m.trace ++ (f a).trace, (f a).val⟩

instance : Monad Proc where
  pure a := ⟨[], some a⟩
  bind := Proc.bind

/-- Perform the events and go on. -/
def emit (es : List Event) : Proc Unit := ⟨es, some ()⟩

/-- Perform the events, the last of which terminates the process. -/
def halt {α : Type} (es : List Event) : Proc α := ⟨es, none⟩

/-- The macro `ORT_ABORT_ON_ERROR(expr)`: evaluate the call; on a non-null status fetch its
message, print it on standard error, release the status and abort. -/
def ORT_ABORT_ON_ERROR {α : Type} (c : Call) (answer : Except String α) : Proc α :=
  match answer with
  | .ok a => ⟨[.call c none], some a⟩
  | .error msg =>
    ⟨[.call c (some msg), .GetErrorMessage, .fprintf_stderr "%s\n" [.str msg],
      .ReleaseStatus, .abort], none⟩

/-- The macro `assert(expr)` of `assert.h`, `NDEBUG` not defined. -/
def assert (expr : String) (holds : Bool) : Proc Unit :=
  if holds then ⟨[], some ()⟩ else ⟨[.assert_failed expr, .abort], none⟩

/-- The function `verify_input_output_count`. -/
def verify_input_output_count (ort : OrtApi) (session : Handle) : Proc Unit := do
  let count ← ORT_ABORT_ON_ERROR (.SessionGetInputCount session) ort.SessionGetInputCount
  assert "count == 3" (count == 3)
  let count ← ORT_ABORT_ON_ERROR (.SessionGetOutputCount session) ort.SessionGetOutputCount
  assert "count == 2" (count == 2)

/-- The largest value of an `int`. -/
def INT_MAX : Int := 2147483647

/-- The smallest value of an `int`. -/
def INT_MIN : Int := -2147483648

/-- The value an `int` variable holds after the integer `x` is stored in it: `x` itself
between `INT_MIN` and `INT_MAX`, and wrapped around modulo `2^32` outside. -/
def to_int (x : Int) : Int := (x + 2147483648) % 4294967296 - 2147483648

/-- The conversion of an `int` to `size_t`, modulo `2^64`. -/
def to_size_t (x : Int) : Int := x % 18446744073709551616

/-- The assignment `buf[i] = c`; a store below the array does not touch its cells. -/
def store (buf : List Cell) (i : Int) (c : Cell) : List Cell :=
  if 0 ≤ i then buf.set i.toNat c else buf

/-- The declaration of a variable-length array of `size` bytes: the process goes on when
the stack has room for it and is killed otherwise. -/
def declare_vla (fits : Bool) (size : Nat) : Proc Unit :=
  if fits then ⟨[], some ()⟩ else ⟨[.stack_overflow size], none⟩

/-- The events of a loop are performed, and the process gets past the loop only when the
loop was left. -/
def run_loop (p : List Event × Bool) : Proc Unit :=
  ⟨p.1, if p.2 then some () else none⟩

/-- The loop `for (int i = 0; i < num_tokens; i++) buf[i] = v;` from counter value `i` on;
the first argument bounds the number of iterations still to run. The comparison converts
`i` to `size_t`. -/
def fill_loop (num_tokens : Nat) (v : Int) : Nat → Int → List Cell → List Cell
  | 0, _, buf => buf
  | fuel + 1, i, buf =>
    if to_size_t i < (num_tokens : Int) then
      fill_loop num_tokens v fuel (to_int (i + 1)) (store buf i (some v))
    else buf

/-- The cells of `int64_t buf[num_tokens];` after the loop that follows its declaration.
The loop is left within `num_tokens` iterations: after `num_tokens` of them when
`num_tokens ≤ INT_MAX`, and after `2^31`, when the counter wraps around, for the longer
arrays up to `2^64 - 2^31` cells (`fill_loop_in_range`, `fill_loop_wraps`). -/
def filled_array (num_tokens : Nat) (v : Int) : List Cell :=
  fill_loop num_tokens v num_tokens 0 (List.replicate num_tokens none)

/-- The index expression of the preview of the first output,
`batch*dims[1]*dims[2] + token*dims[2] + feature`. -/
def hidden_state_index (d1 d2 batch token feature : Int) : Int :=
  batch * d1 * d2 + token * d2 + feature

/-- The loop `for (int feature = 0; feature < 3; feature++) printf("%0.4e, ", ...)`. -/
def feature_loop (last_hidden_state : Int → CFloat) (d1 d2 batch token : Int) :
    Nat → Int → List Event
  | 0, _ => []
  | fuel + 1, feature =>
    if feature < 3 then
      [.load "last_hidden_state" (hidden_state_index d1 d2 batch token feature),
       .printf "%0.4e, " [.float (last_hidden_state (hidden_state_index d1 d2 batch token feature))]]
        ++ feature_loop last_hidden_state d1 d2 batch token fuel (to_int (feature + 1))
    else []

/-- The loop `for (int token = 0; token < dims[1]; token++)` with its body, from counter
value `token` on: the events of the iterations run, and whether the loop was left. -/
def token_loop (last_hidden_state : Int → CFloat) (d1 d2 batch : Int) :
    Nat → Int → List Event × Bool
  | 0, _ => ([], false)
  | fuel + 1, token =>
    if token < d1 then
      let rest := token_loop last_hidden_state d1 d2 batch fuel (to_int (token + 1))
      ([.printf "    [" []]
        ++ feature_loop last_hidden_state d1 d2 batch token 3 0
        ++ [.printf "...]\n" []]
        ++ rest.1, rest.2)
    else ([], true)

/-- The loop `for (int batch = 0; batch < dims[0]; batch++)` with its body, from counter
value `batch` on: the events of the iterations run, and whether the loop was left. An
iteration whose inner loop is not left does not end. -/
def batch_loop (last_hidden_state : Int → CFloat) (d0 d1 d2 : Int) :
    Nat → Int → List Event × Bool
  | 0, _ => ([], false)
  | fuel + 1, batch =>
    if batch < d0 then
      let inner := token_loop last_hidden_state d1 d2 batch (d1.toNat + 1) 0
      if inner.2 then
        let rest := batch_loop last_hidden_state d0 d1 d2 fuel (to_int (batch + 1))
        ([.printf "\n[\n  [\n" []] ++ inner.1 ++ [.printf "  ]" []] ++ rest.1, rest.2)
      else ([.printf "\n[\n  [\n" []] ++ inner.1, false)
    else ([], true)

/-- The data preview of the first output (lines 106 to 118 of the source): its events, and
whether the loops were left, in which case the closing bracket is printed. -/
def print_last_hidden_state (last_hidden_state : Int → CFloat) (d0 d1 d2 : Int) :
    List Event × Bool :=
  let loop := batch_loop last_hidden_state d0 d1 d2 (d0.toNat + 1) 0
  if loop.2 then ([.printf "data: " []] ++ loop.1 ++ [.printf "\n]\n" []], true)
  else ([.printf "data: " []] ++ loop.1, false)

/-- The loop `for (int i = 0; i < dims[1]; i++) { if (i < 10) printf(...); }` from counter
value `i` on: the events of the iterations run, and whether the loop was left. -/
def pooler_loop (pooler_output : Int → CFloat) (d1 : Int) : Nat → Int → List Event × Bool
  | 0, _ => ([], false)
  | fuel + 1, i =>
    if i < d1 then
      let rest := pooler_loop pooler_output d1 fuel (to_int (i + 1))
      ((if i < 10 then
          [.load "pooler_output" i, .printf "%0.4e, " [.float (pooler_output i)]]
        else [])
        ++ rest.1, rest.2)
    else ([], true)

/-- The data preview of the second output (lines 130 to 134 of the source): its events, and
whether the loop was left, in which case the ellipsis is printed. -/
def print_pooler_output (pooler_output : Int → CFloat) (d1 : Int) : List Event × Bool :=
  let loop := pooler_loop pooler_output d1 (d1.toNat + 1) 0
  if loop.2 then ([.printf "data: [" []] ++ loop.1 ++ [.printf "...]\n" []], true)
  else ([.printf "data: [" []] ++ loop.1, false)

/-- The function `run_inference`. -/
def run_inference (ort : OrtApi) (session : Handle) (tokens : List Cell) (num_tokens : Nat) :
    Proc Int := do
  let memory_info ← ORT_ABORT_ON_ERROR .CreateCpuMemoryInfo ort.CreateCpuMemoryInfo
  let input_shape : List Int := [1, (num_tokens : Int)]
  let input_ids ← ORT_ABORT_ON_ERROR
    (.CreateTensorWithDataAsOrtValue memory_info tokens (num_tokens * sizeof_int64_t)
      input_shape 2 "input_ids") ort.CreateTensor_input_ids
  assert "input_ids != NULL" (input_ids != NULL)
  let is_tensor ← ORT_ABORT_ON_ERROR (.IsTensor input_ids) ort.IsTensor_input_ids
  assert "is_tensor" (is_tensor != 0)
  declare_vla ort.mask_fits (num_tokens * sizeof_int64_t)
  let mask := filled_array num_tokens 1
  let attention_mask ← ORT_ABORT_ON_ERROR
    (.CreateTensorWithDataAsOrtValue memory_info mask (num_tokens * sizeof_int64_t)
      input_shape 2 "attention_mask") ort.CreateTensor_attention_mask
  assert "attention_mask != NULL" (attention_mask != NULL)
  let is_tensor ← ORT_ABORT_ON_ERROR (.IsTensor attention_mask) ort.IsTensor_attention_mask
  assert "is_tensor" (is_tensor != 0)
  declare_vla ort.types_fits (num_tokens * sizeof_int64_t)
  let types := filled_array num_tokens 0
  let token_type_ids ← ORT_ABORT_ON_ERROR
    (.CreateTensorWithDataAsOrtValue memory_info types (num_tokens * sizeof_int64_t)
      input_shape 2 "token_type_ids") ort.CreateTensor_token_type_ids
  assert "token_type_ids != NULL" (token_type_ids != NULL)
  let is_tensor ← ORT_ABORT_ON_ERROR (.IsTensor token_type_ids) ort.IsTensor_token_type_ids
  assert "is_tensor" (is_tensor != 0)
  emit [.ReleaseMemoryInfo memory_info]
  let outputs ← ORT_ABORT_ON_ERROR
    (.Run session ["input_ids", "attention_mask", "token_type_ids"]
      [input_ids, attention_mask, token_type_ids] 3
      ["last_hidden_state", "pooler_output"] 2) ort.Run
  assert "outputs != NULL" true
  assert "outputs[0] != NULL" (outputs.1 != NULL)
  assert "outputs[1] != NULL" (outputs.2 != NULL)
  let ret : Int := 0
  let last_hidden_state ← ORT_ABORT_ON_ERROR (.GetTensorMutableData outputs.1)
    ort.GetTensorMutableData_0
  let shape_info ← ORT_ABORT_ON_ERROR (.GetTensorTypeAndShape outputs.1)
    ort.GetTensorTypeAndShape_0
  let dim_count ← ORT_ABORT_ON_ERROR (.GetDimensionsCount shape_info) ort.GetDimensionsCount_0
  assert "dim_count == 3" (dim_count == 3)
  let dims_hidden_state ← ORT_ABORT_ON_ERROR (.GetDimensions shape_info 3) ort.GetDimensions_0
  emit [.printf "shape: (%li,%li,%li)\n"
    [.int dims_hidden_state.1, .int dims_hidden_state.2.1, .int dims_hidden_state.2.2]]
  run_loop (print_last_hidden_state last_hidden_state
    dims_hidden_state.1 dims_hidden_state.2.1 dims_hidden_state.2.2)
  let pooler_output ← ORT_ABORT_ON_ERROR (.GetTensorMutableData outputs.2)
    ort.GetTensorMutableData_1
  let shape_info ← ORT_ABORT_ON_ERROR (.GetTensorTypeAndShape outputs.2)
    ort.GetTensorTypeAndShape_1
  let dim_count ← ORT_ABORT_ON_ERROR (.GetDimensionsCount shape_info) ort.GetDimensionsCount_1
  assert "dim_count == 2" (dim_count == 2)
  let dims ← ORT_ABORT_ON_ERROR (.GetDimensions shape_info 2) ort.GetDimensions_1
  emit [.printf "shape: (%li,%li)\n" [.int dims.1, .int dims.2]]
  run_loop (print_pooler_output pooler_output dims.2)
  emit [.ReleaseValue input_ids]
  emit [.ReleaseValue attention_mask]
  emit [.ReleaseValue token_type_ids]
  emit [.ReleaseTensorTypeAndShapeInfo shape_info]
  pure ret

/-- The token ids written by `main` into the buffer it allocates. -/
def main_tokens : List Cell :=
  let tokens : List Cell := List.replicate 7 none
  let tokens := tokens.set 0 (some 101)
  let tokens := tokens.set 1 (some 2023)
  let tokens := tokens.set 2 (some 2003)
  let tokens := tokens.set 3 (some 2019)
  let tokens := tokens.set 4 (some 2742)
  let tokens := tokens.set 5 (some 6251)
  let tokens := tokens.set 6 (some 102)
  tokens

/-- The function `main`; `argv` lists the `argc` command-line strings. -/
def main (ort : OrtApi) (argc : Int) (argv : List String) : Proc Int := do
  emit [.GetApi]
  let model_path ←
    if argc ≥ 2 then (pure (argv.getD 1 "") : Proc String)
    else halt [.fprintf_stderr "Must include model path\n" [], .exit EXIT_FAILURE]
  let env ← ORT_ABORT_ON_ERROR (.CreateEnv .ORT_LOGGING_LEVEL_WARNING "test") ort.CreateEnv
  assert "env != NULL" (env != NULL)
  let session_options ← ORT_ABORT_ON_ERROR .CreateSessionOptions ort.CreateSessionOptions
  let session ← ORT_ABORT_ON_ERROR (.CreateSession env model_path session_options)
    ort.CreateSession
  verify_input_output_count ort session
  let num_tokens : Nat := 7
  emit [.malloc (num_tokens * sizeof_int64_t)]
  let tokens := main_tokens
  let ret ← run_inference ort session tokens num_tokens
  emit [.ReleaseSessionOptions session_options]
  emit [.ReleaseSession session]
  emit [.ReleaseEnv env]
  emit [.free "tokens"]
  pure ret

/-- A runtime on which every call succeeds: handles `1` to `11`, a first output of shape
`(1, 7, 384)` and a second of shape `(1, 384)`, whose elements are their own offsets. -/
def demo_ort : OrtApi where
  CreateEnv := .ok 1
  CreateSessionOptions := .ok 2
  CreateSession := .ok 3
  SessionGetInputCount := .ok 3
  SessionGetOutputCount := .ok 2
  CreateCpuMemoryInfo := .ok 4
  CreateTensor_input_ids := .ok 5
  IsTensor_input_ids := .ok 1
  mask_fits := true
  CreateTensor_attention_mask := .ok 6
  IsTensor_attention_mask := .ok 1
  types_fits := true
  CreateTensor_token_type_ids := .ok 7
  IsTensor_token_type_ids := .ok 1
  Run := .ok (8, 9)
  GetTensorMutableData_0 := .ok (fun i => i.toNat)
  GetTensorTypeAndShape_0 := .ok 10
  GetDimensionsCount_0 := .ok 3
  GetDimensions_0 := .ok (1, 7, 384)
  GetTensorMutableData_1 := .ok (fun i => i.toNat)
  GetTensorTypeAndShape_1 := .ok 11
  GetDimensionsCount_1 := .ok 2
  GetDimensions_1 := .ok (1, 384)

/-- Whether the event is a `printf("%0.4e, ", x)`, the printing of one tensor element. -/
def is_value_print : Event → Bool
  | .printf format _ => format == "%0.4e, "
  | _ => false

/-- A runtime that accepts everything except the model file: `CreateSession` fails. -/
def bad_model_ort : OrtApi :=
  { demo_ort with CreateSession := .error "Load model missing.onnx failed" }

/-- A runtime whose session reports four inputs. -/
def four_inputs_ort : OrtApi :=
  { demo_ort with SessionGetInputCount := .ok 4 }

/-- A runtime whose first output is reported to have rank 2. -/
def rank2_ort : OrtApi :=
  { demo_ort with GetDimensionsCount_0 := .ok 2 }

/-- A runtime whose second output is reported to have rank 3. -/
def rank3_second_ort : OrtApi :=
  { demo_ort with GetDimensionsCount_1 := .ok 3 }

/-- The line the specification of the first preview describes for batch `b` and position `t` of a
tensor of shape `(B, S, F)`: the opening bracket, the three elements at the row-major
offsets `b*S*F + t*F + f`, `f = 0, 1, 2`, each read and then printed, and the ellipsis. -/
def spec_token_line (last_hidden_state : Int → CFloat) (S F b t : Nat) : List Event :=
  [.printf "    [" [],
   .load "last_hidden_state" (b * S * F + t * F + 0),
   .printf "%0.4e, " [.float (last_hidden_state (b * S * F + t * F + 0))],
   .load "last_hidden_state" (b * S * F + t * F + 1),
   .printf "%0.4e, " [.float (last_hidden_state (b * S * F + t * F + 1))],
   .load "last_hidden_state" (b * S * F + t * F + 2),
   .printf "%0.4e, " [.float (last_hidden_state (b * S * F + t * F + 2))],
   .printf "...]\n" []]

/-- The first preview as the specification describes it: one line per pair `(b, t)`, batch-major. -/
def spec_hidden_preview (last_hidden_state : Int → CFloat) (B S F : Nat) : List Event :=
  [.printf "data: " []]
    ++ (List.range B).flatMap (fun b =>
        [.printf "\n[\n  [\n" []]
          ++ (List.range S).flatMap (fun t => spec_token_line last_hidden_state S F b t)
          ++ [.printf "  ]" []])
    ++ [.printf "\n]\n" []]

/-- The second preview as the specification describes it: the elements at offsets
`0 .. min(F,10)-1`, each read and then printed, and the ellipsis. -/
def spec_pooler_preview (pooler_output : Int → CFloat) (F : Nat) : List Event :=
  [.printf "data: [" []]
    ++ (List.range (min F 10)).flatMap (fun i =>
        [.load "pooler_output" (i : Int), .printf "%0.4e, " [.float (pooler_output i)]])
    ++ [.printf "...]\n" []]

/-- The values the runtime hands back to `run_inference` on a run that returns. -/
structure Answers where
  memory_info : Handle
  input_ids : Handle
  attention_mask : Handle
  token_type_ids : Handle
  output0 : Handle
  output1 : Handle
  last_hidden_state : Int → CFloat
  shape_info0 : Handle
  dims_hidden_state : Int × Int × Int
  pooler_output : Int → CFloat
  shape_info1 : Handle
  dims : Int × Int

/-- The events of `run_inference` up to and including the inference call, on a run that
gets that far. -/
def inference_events (session : Handle) (tokens : List Cell) (num_tokens : Nat) (a : Answers) :
    List Event :=
  [.call .CreateCpuMemoryInfo none,
   .call (.CreateTensorWithDataAsOrtValue a.memory_info tokens (num_tokens * sizeof_int64_t)
      [1, (num_tokens : Int)] 2 "input_ids") none,
   .call (.IsTensor a.input_ids) none,
   .call (.CreateTensorWithDataAsOrtValue a.memory_info (filled_array num_tokens 1)
      (num_tokens * sizeof_int64_t) [1, (num_tokens : Int)] 2 "attention_mask") none,
   .call (.IsTensor a.attention_mask) none,
   .call (.CreateTensorWithDataAsOrtValue a.memory_info (filled_array num_tokens 0)
      (num_tokens * sizeof_int64_t) [1, (num_tokens : Int)] 2 "token_type_ids") none,
   .call (.IsTensor a.token_type_ids) none,
   .ReleaseMemoryInfo a.memory_info,
   .call (.Run session ["input_ids", "attention_mask", "token_type_ids"]
      [a.input_ids, a.attention_mask, a.token_type_ids] 3
      ["last_hidden_state", "pooler_output"] 2) none]

/-- The events of `run_inference` that inspect and preview the first output, on a run that
gets through them. -/
def report0_events (a : Answers) : List Event :=
  [.call (.GetTensorMutableData a.output0) none,
   .call (.GetTensorTypeAndShape a.output0) none,
   .call (.GetDimensionsCount a.shape_info0) none,
   .call (.GetDimensions a.shape_info0 3) none,
   .printf "shape: (%li,%li,%li)\n"
     [.int a.dims_hidden_state.1, .int a.dims_hidden_state.2.1, .int a.dims_hidden_state.2.2]]
    ++ (print_last_hidden_state a.last_hidden_state
        a.dims_hidden_state.1 a.dims_hidden_state.2.1 a.dims_hidden_state.2.2).1

/-- The events of `run_inference` that inspect and preview the second output, on a run that
gets through them. -/
def report1_events (a : Answers) : List Event :=
  [.call (.GetTensorMutableData a.output1) none,
   .call (.GetTensorTypeAndShape a.output1) none,
   .call (.GetDimensionsCount a.shape_info1) none,
   .call (.GetDimensions a.shape_info1 2) none,
   .printf "shape: (%li,%li)\n" [.int a.dims.1, .int a.dims.2]]
    ++ (print_pooler_output a.pooler_output a.dims.2).1

/-- The releases at the end of `run_inference`. -/
def inference_releases (a : Answers) : List Event :=
  [.ReleaseValue a.input_ids, .ReleaseValue a.attention_mask, .ReleaseValue a.token_type_ids,
   .ReleaseTensorTypeAndShapeInfo a.shape_info1]

/-- The events of `main` before it calls `run_inference`, on a run that gets that far. -/
def startup_events (env session_options session : Handle) (model_path : String) : List Event :=
  [.GetApi,
   .call (.CreateEnv .ORT_LOGGING_LEVEL_WARNING "test") none,
   .call .CreateSessionOptions none,
   .call (.CreateSession env model_path session_options) none,
   .call (.SessionGetInputCount session) none,
   .call (.SessionGetOutputCount session) none,
   .malloc (7 * sizeof_int64_t)]

/-- The releases at the end of `main`. -/
def main_releases (env session_options session : Handle) : List Event :=
  [.ReleaseSessionOptions session_options, .ReleaseSession session, .ReleaseEnv env,
   .free "tokens"]

/-- The runtime answers every call of `run_inference` up to and including the inference
call with success and the values in `a`, these pass the assertions, and the stack has room
for the two arrays. -/
def RunAnswered (ort : OrtApi) (a : Answers) : Prop :=
  ort.CreateCpuMemoryInfo = .ok a.memory_info
  ∧ ort.CreateTensor_input_ids = .ok a.input_ids ∧ a.input_ids ≠ NULL
  ∧ (∃ is_tensor, ort.IsTensor_input_ids = .ok is_tensor ∧ is_tensor ≠ 0)
  ∧ ort.mask_fits = true
  ∧ ort.CreateTensor_attention_mask = .ok a.attention_mask ∧ a.attention_mask ≠ NULL
  ∧ (∃ is_tensor, ort.IsTensor_attention_mask = .ok is_tensor ∧ is_tensor ≠ 0)
  ∧ ort.types_fits = true
  ∧ ort.CreateTensor_token_type_ids = .ok a.token_type_ids ∧ a.token_type_ids ≠ NULL
  ∧ (∃ is_tensor, ort.IsTensor_token_type_ids = .ok is_tensor ∧ is_tensor ≠ 0)
  ∧ ort.Run = .ok (a.output0, a.output1) ∧ a.output0 ≠ NULL ∧ a.output1 ≠ NULL

/-- The runtime hands out the data pointer and the shape descriptor of the first output. -/
def Shape0Answered (ort : OrtApi) (a : Answers) : Prop :=
  ort.GetTensorMutableData_0 = .ok a.last_hidden_state
  ∧ ort.GetTensorTypeAndShape_0 = .ok a.shape_info0

/-- The runtime reports rank 3 for the first output, and its dimensions. -/
def Dims0Answered (ort : OrtApi) (a : Answers) : Prop :=
  ort.GetDimensionsCount_0 = .ok 3
  ∧ ort.GetDimensions_0 = .ok a.dims_hidden_state

/-- The runtime hands out the data pointer and the shape descriptor of the second output. -/
def Shape1Answered (ort : OrtApi) (a : Answers) : Prop :=
  ort.GetTensorMutableData_1 = .ok a.pooler_output
  ∧ ort.GetTensorTypeAndShape_1 = .ok a.shape_info1

/-- The runtime answers every call of `run_inference` with success and the values in `a`,
and these pass the assertions. -/
def Answered (ort : OrtApi) (a : Answers) : Prop :=
  RunAnswered ort a ∧ Shape0Answered ort a ∧ Dims0Answered ort a ∧ Shape1Answered ort a
  ∧ ort.GetDimensionsCount_1 = .ok 2
  ∧ ort.GetDimensions_1 = .ok a.dims

/-- The loops of the preview of the first output are left. -/
def Preview0Finishes (a : Answers) : Prop :=
  (print_last_hidden_state a.last_hidden_state
    a.dims_hidden_state.1 a.dims_hidden_state.2.1 a.dims_hidden_state.2.2).2 = true

/-- The loop of the preview of the second output is left. -/
def Preview1Finishes (a : Answers) : Prop :=
  (print_pooler_output a.pooler_output a.dims.2).2 = true

/-- The runtime answers the calls `main` makes before `run_inference` with success, a
non-null environment and the counts 3 and 2. -/
def StartupAnswered (ort : OrtApi) (env session_options session : Handle) : Prop :=
  ort.CreateEnv = .ok env ∧ env ≠ NULL
  ∧ ort.CreateSessionOptions = .ok session_options
  ∧ ort.CreateSession = .ok session
  ∧ ort.SessionGetInputCount = .ok 3
  ∧ ort.SessionGetOutputCount = .ok 2

/-- A call of the API that returned a non-null status. -/
def is_failed_call : Event → Bool
  | .call _ (some _) => true
  | _ => false

/-- The releases of the teardown named by the specification, and the freeing of the token
buffer. -/
def is_teardown : Event → Bool
  | .ReleaseValue _ => true
  | .ReleaseTensorTypeAndShapeInfo _ => true
  | .ReleaseSessionOptions _ => true
  | .ReleaseSession _ => true
  | .ReleaseEnv _ => true
  | .free _ => true
  | _ => false

/-- The events the preview loops of the first output can produce. -/
def is_preview0 : Event → Bool
  | .printf format _ =>
    format == "data: " || format == "\n[\n  [\n" || format == "    [" || format == "%0.4e, "
      || format == "...]\n" || format == "  ]" || format == "\n]\n"
  | .load buffer _ => buffer == "last_hidden_state"
  | _ => false

/-- The events the preview loop of the second output can produce. -/
def is_preview1 : Event → Bool
  | .printf format _ => format == "data: [" || format == "%0.4e, " || format == "...]\n"
  | .load buffer _ => buffer == "pooler_output"
  | _ => false

/-- The events that read the dimensions of an output tensor (`GetDimensions`), print on
standard output, or read the data buffer of an output tensor; those of the first output
are among them. -/
def is_dims_or_output : Event → Bool
  | .call (.GetDimensions _ _) _ => true
  | .printf _ _ => true
  | .load _ _ => true
  | _ => false

/-- The events that read or print the dimensions or the data of the second output: the
`GetDimensions` call into the 2-slot array, the shape line, the opening of the data preview
and the reads of the data buffer. -/
def is_report1 : Event → Bool
  | .call (.GetDimensions _ n) _ => n == 2
  | .printf format _ => format == "shape: (%li,%li)\n" || format == "data: ["
  | .load buffer _ => buffer == "pooler_output"
  | _ => false

/-- Every event of the run satisfies `Q`. -/
def AllEv {α : Type} (Q : Event → Prop) (m : Proc α) : Prop :=
  ∀ e ∈ m.trace, Q e

/-- The property `Q` holds of the events by which a failed call or a failed assertion
terminates the process. -/
def Quiet (Q : Event → Prop) : Prop :=
  Q .GetErrorMessage ∧ Q .ReleaseStatus ∧ Q .abort
  ∧ (∀ format args, Q (.fprintf_stderr format args)) ∧ (∀ expr, Q (.assert_failed expr))

/-- What follows a call that returned the failure `msg`: its message is fetched and printed
on standard error, the status is released and the process aborts. -/
def abort_events (msg : String) : List Event :=
  [.GetErrorMessage, .fprintf_stderr "%s\n" [.str msg], .ReleaseStatus, .abort]

/-- Either no call of the run failed, or the run was terminated and its trace is a failure-free
part, then one failed call, then exactly the events of `abort_events`. -/
def FailStop {α : Type} (m : Proc α) : Prop :=
  (∀ e ∈ m.trace, is_failed_call e = false)
  ∨ (m.val = none ∧ ∃ pre c msg, (∀ e ∈ pre, is_failed_call e = false)
      ∧ m.trace = pre ++ Event.call c (some msg) :: abort_events msg)

/-- If the event is the creation of the tensor stored in variable `out`, the buffer handed
to the runtime holds exactly `content`. -/
def BufferIs (out : String) (content : List Cell) (e : Event) : Prop :=
  ∀ info p_data p_data_len shape shape_len st,
    e = .call (.CreateTensorWithDataAsOrtValue info p_data p_data_len shape shape_len out) st →
      p_data = content

/-- The events that give a handle back to the runtime. -/
def is_release : Event → Bool
  | .ReleaseMemoryInfo _ => true
  | .ReleaseValue _ => true
  | .ReleaseTensorTypeAndShapeInfo _ => true
  | .ReleaseSessionOptions _ => true
  | .ReleaseSession _ => true
  | .ReleaseEnv _ => true
  | _ => false

/-- The values `demo_ort` hands back. -/
def demo_answers : Answers where
  memory_info := 4
  input_ids := 5
  attention_mask := 6
  token_type_ids := 7
  output0 := 8
  output1 := 9
  last_hidden_state := fun i => i.toNat
  shape_info0 := 10
  dims_hidden_state := (1, 7, 384)
  pooler_output := fun i => i.toNat
  shape_info1 := 11
  dims := (1, 384)

/-! ## Sequencing lemmas -/

@[simp] theorem bind_eq {α β : Type} (m : Proc α) (f : α → Proc β) :
    (m >>= f) = Proc.bind m f := rfl

@[simp] theorem pure_eq {α : Type} (a : α) : (pure a : Proc α) = ⟨[], some a⟩ := rfl

theorem pure_bind {α β : Type} (a : α) (f : α → Proc β) :
    Proc.bind (pure a) f = f a := by
  simp [Proc.bind]

theorem bind_val_none {α β : Type} (m : Proc α) (f : α → Proc β) (h : m.val = none) :
    Proc.bind m f = ⟨m.trace, none⟩ := by
  simp [Proc.bind, h]

theorem bind_val_some {α β : Type} (m : Proc α) (f : α → Proc β) (a : α) (h : m.val = some a) :
    Proc.bind m f = ⟨m.trace ++ (f a).trace, (f a).val⟩ := by
  simp [Proc.bind, h]

/-! ## The `int` counter -/

theorem to_int_of_range (x : Int) (h1 : INT_MIN ≤ x) (h2 : x ≤ INT_MAX) : to_int x = x := by
  unfold INT_MIN at h1
  unfold INT_MAX at h2
  unfold to_int
  omega

theorem to_int_range (x : Int) : INT_MIN ≤ to_int x ∧ to_int x ≤ INT_MAX := by
  unfold INT_MIN INT_MAX to_int
  omega

theorem to_size_t_of_nonneg (x : Int) (h1 : 0 ≤ x) (h2 : x ≤ INT_MAX) : to_size_t x = x := by
  unfold INT_MAX at h2
  unfold to_size_t
  omega

/-! ## The array-filling loop -/

theorem take_succ_set {α : Type} (x : α) :
    ∀ (buf : List α) (i : Nat), i < buf.length → (buf.set i x).take (i + 1) = buf.take i ++ [x]
  | [], i, h => by simp at h
  | _ :: l, 0, _ => by simp
  | a :: l, i + 1, h => by
    have ih := take_succ_set x l i (by simpa using h)
    simp [ih]

theorem drop_succ_set {α : Type} (x : α) :
    ∀ (buf : List α) (i n : Nat), (buf.set i x).drop (i + 1 + n) = buf.drop (i + 1 + n)
  | [], i, n => by simp
  | _ :: l, 0, n => by
    have e : 0 + 1 + n = n + 1 := by omega
    rw [e]
    simp
  | a :: l, i + 1, n => by
    have ih := drop_succ_set x l i n
    have e : i + 1 + 1 + n = (i + 1 + n) + 1 := by omega
    rw [e]
    simpa using ih

theorem fill_loop_steps (num_tokens : Nat) (v : Int) :
    ∀ (n k fuel : Nat) (buf : List Cell), buf.length = num_tokens →
      k + n ≤ num_tokens → ((k + n : Nat) : Int) ≤ INT_MAX + 1 → n ≤ fuel →
      fill_loop num_tokens v fuel (to_int (k : Int)) buf
        = fill_loop num_tokens v (fuel - n) (to_int ((k + n : Nat) : Int))
            (buf.take k ++ List.replicate n (some v) ++ buf.drop (k + n)) := by
  intro n
  induction n with
  | zero =>
    intro k fuel buf _ _ _ _
    simp
  | succ n ih =>
    intro k fuel buf hlen hkn hmax hfuel
    obtain ⟨f, rfl⟩ : ∃ f, fuel = f + 1 := ⟨fuel - 1, by omega⟩
    have hk : to_int (k : Int) = (k : Int) := by
      apply to_int_of_range
      · unfold INT_MIN; omega
      · unfold INT_MAX at hmax ⊢; omega
    have hs : to_size_t (k : Int) = (k : Int) := by
      apply to_size_t_of_nonneg
      · omega
      · unfold INT_MAX at hmax ⊢; omega
    have hcond : to_size_t (k : Int) < (num_tokens : Int) := by
      rw [hs]; omega
    rw [hk]
    simp only [fill_loop, hcond, if_true]
    have hstore : store buf (k : Int) (some v) = buf.set k (some v) := by
      simp [store]
    rw [hstore]
    have hnext : to_int ((k : Int) + 1) = to_int (((k + 1 : Nat)) : Int) := by
      push_cast; rfl
    rw [hnext]
    rw [ih (k + 1) f (buf.set k (some v)) (by simpa using hlen) (by omega)
      (by push_cast at hmax ⊢; omega) (by omega)]
    have e1 : (buf.set k (some v)).take (k + 1) = buf.take k ++ [some v] :=
      take_succ_set (some v) buf k (by omega)
    have e2 : (buf.set k (some v)).drop (k + 1 + n) = buf.drop (k + 1 + n) :=
      drop_succ_set (some v) buf k n
    have e3 : k + 1 + n = k + (n + 1) := by omega
    have e4 : f + 1 - (n + 1) = f - n := by omega
    rw [e1, e2, e3, e4]
    simp [List.replicate_succ]

/-- The array is filled when its length fits in an `int`, whatever the number of
iterations granted beyond `num_tokens`. -/
theorem fill_loop_in_range (num_tokens : Nat) (v : Int) (fuel : Nat)
    (hmax : (num_tokens : Int) ≤ INT_MAX) (hfuel : num_tokens ≤ fuel) :
    fill_loop num_tokens v fuel 0 (List.replicate num_tokens none)
      = List.replicate num_tokens (some v) := by
  have h := fill_loop_steps num_tokens v num_tokens 0 fuel (List.replicate num_tokens none)
    (by simp) (by omega) (by push_cast; omega) hfuel
  have h0 : to_int ((0 : Nat) : Int) = 0 := by decide
  rw [h0] at h
  rw [h]
  have hn : to_int ((0 + num_tokens : Nat) : Int) = (num_tokens : Int) := by
    rw [Nat.zero_add]
    apply to_int_of_range
    · unfold INT_MIN; omega
    · exact hmax
  rw [hn]
  have hbuf : List.take 0 (List.replicate num_tokens (none : Cell))
      ++ List.replicate num_tokens (some v)
      ++ List.drop (0 + num_tokens) (List.replicate num_tokens (none : Cell))
      = List.replicate num_tokens (some v) := by
    simp
  rw [hbuf]
  cases hf : fuel - num_tokens with
  | zero => rfl
  | succ f =>
    have hs : to_size_t (num_tokens : Int) = (num_tokens : Int) :=
      to_size_t_of_nonneg _ (by omega) hmax
    simp [fill_loop, hs]

theorem filled_array_eq (num_tokens : Nat) (v : Int) (hmax : (num_tokens : Int) ≤ INT_MAX) :
    filled_array num_tokens v = List.replicate num_tokens (some v) :=
  fill_loop_in_range num_tokens v num_tokens hmax (Nat.le_refl _)

/-- The array keeps unwritten cells when its length exceeds `INT_MAX + 1`: the counter
wraps around after `2^31` iterations and the loop is left, whatever the number of
iterations granted beyond `2^31`. -/
theorem fill_loop_wraps (num_tokens : Nat) (v : Int) (fuel : Nat)
    (hmin : 2147483648 ≤ num_tokens) (hmax : num_tokens ≤ 18446744071562067968)
    (hfuel : 2147483648 ≤ fuel) :
    fill_loop num_tokens v fuel 0 (List.replicate num_tokens none)
      = List.replicate 2147483648 (some v)
          ++ List.replicate (num_tokens - 2147483648) none := by
  have h := fill_loop_steps num_tokens v 2147483648 0 fuel (List.replicate num_tokens none)
    (by simp) (by omega) (by unfold INT_MAX; norm_num) hfuel
  have h0 : to_int ((0 : Nat) : Int) = 0 := by decide
  rw [h0] at h
  rw [h]
  have hn : to_int ((0 + 2147483648 : Nat) : Int) = -2147483648 := by
    unfold to_int
    omega
  rw [hn]
  have hbuf : List.take 0 (List.replicate num_tokens (none : Cell))
      ++ List.replicate 2147483648 (some v)
      ++ List.drop (0 + 2147483648) (List.replicate num_tokens (none : Cell))
      = List.replicate 2147483648 (some v)
          ++ List.replicate (num_tokens - 2147483648) none := by
    simp only [List.take_zero, List.nil_append, Nat.zero_add, List.drop_replicate]
  rw [hbuf]
  cases hf : fuel - 2147483648 with
  | zero => rfl
  | succ f =>
    have hs : ¬ to_size_t (-2147483648) < (num_tokens : Int) := by
      unfold to_size_t
      omega
    simp only [fill_loop, hs, if_false]

theorem filled_array_wraps (num_tokens : Nat) (v : Int)
    (hmin : 2147483648 ≤ num_tokens) (hmax : num_tokens ≤ 18446744071562067968) :
    filled_array num_tokens v
      = List.replicate 2147483648 (some v)
          ++ List.replicate (num_tokens - 2147483648) none :=
  fill_loop_wraps num_tokens v num_tokens hmin hmax hmin

theorem filled_array_ne_replicate (num_tokens : Nat) (v : Int)
    (hmin : 2147483648 < num_tokens) (hmax : num_tokens ≤ 18446744071562067968) :
    filled_array num_tokens v ≠ List.replicate num_tokens (some v) := by
  rw [filled_array_wraps num_tokens v (by omega) hmax]
  intro h
  have h1 := congrArg (fun l => l[2147483648]?) h
  simp only at h1
  rw [List.getElem?_append_right (by rw [List.length_replicate])] at h1
  simp only [List.length_replicate, Nat.sub_self] at h1
  rw [List.getElem?_replicate, List.getElem?_replicate] at h1
  have c1 : 0 < num_tokens - 2147483648 := by omega
  have c2 : 2147483648 < num_tokens := hmin
  simp only [c1, c2, if_true] at h1
  cases h1

/-! ## The preview loops, for dimensions that fit in an `int` -/

theorem feature_loop_eq (lhs : Int → CFloat) (S F b t : Nat) :
    [Event.printf "    [" []] ++ feature_loop lhs S F b t 3 0 ++ [Event.printf "...]\n" []]
      = spec_token_line lhs S F b t := by
  simp [feature_loop, spec_token_line, hidden_state_index, to_int]

theorem token_loop_in_range (lhs : Int → CFloat) (S F b : Nat) (hS : (S : Int) ≤ INT_MAX) :
    ∀ (n fuel k : Nat), k + n = S → n < fuel →
      token_loop lhs S F b fuel k
        = ((List.range' k n).flatMap (fun t => spec_token_line lhs S F b t), true) := by
  intro n
  induction n with
  | zero =>
    intro fuel k hk hfuel
    obtain ⟨f, rfl⟩ : ∃ f, fuel = f + 1 := ⟨fuel - 1, by omega⟩
    have hlt : ¬ (k : Int) < (S : Int) := by omega
    simp [token_loop, hlt]
  | succ n ih =>
    intro fuel k hk hfuel
    obtain ⟨f, rfl⟩ : ∃ f, fuel = f + 1 := ⟨fuel - 1, by omega⟩
    have hlt : (k : Int) < (S : Int) := by omega
    have hnext : to_int ((k : Int) + 1) = ((k + 1 : Nat) : Int) := by
      rw [to_int_of_range]
      · push_cast; rfl
      · unfold INT_MIN; omega
      · omega
    have ih2 := ih f (k + 1) (by omega) (by omega)
    simp only [token_loop, hlt, if_true, hnext, ih2, List.range'_succ, List.flatMap_cons]
    rw [← feature_loop_eq]

theorem batch_loop_in_range (lhs : Int → CFloat) (B S F : Nat) (hB : (B : Int) ≤ INT_MAX)
    (hS : (S : Int) ≤ INT_MAX) :
    ∀ (n fuel k : Nat), k + n = B → n < fuel →
      batch_loop lhs B S F fuel k
        = ((List.range' k n).flatMap (fun b =>
            [Event.printf "\n[\n  [\n" []]
              ++ (List.range S).flatMap (fun t => spec_token_line lhs S F b t)
              ++ [Event.printf "  ]" []]), true) := by
  intro n
  induction n with
  | zero =>
    intro fuel k hk hfuel
    obtain ⟨f, rfl⟩ : ∃ f, fuel = f + 1 := ⟨fuel - 1, by omega⟩
    have hlt : ¬ (k : Int) < (B : Int) := by omega
    simp [batch_loop, hlt]
  | succ n ih =>
    intro fuel k hk hfuel
    obtain ⟨f, rfl⟩ : ∃ f, fuel = f + 1 := ⟨fuel - 1, by omega⟩
    have hlt : (k : Int) < (B : Int) := by omega
    have hnext : to_int ((k : Int) + 1) = ((k + 1 : Nat) : Int) := by
      rw [to_int_of_range]
      · push_cast; rfl
      · unfold INT_MIN; omega
      · omega
    have ih2 := ih f (k + 1) (by omega) (by omega)
    have ht := token_loop_in_range lhs S F k hS S (S + 1) 0 (by simp) (by omega)
    simp only [Nat.cast_zero] at ht
    simp only [batch_loop, hlt, if_true, Int.toNat_ofNat, ht, hnext, ih2, List.range'_succ,
      List.flatMap_cons, List.range_eq_range', List.append_assoc]

theorem print_last_hidden_state_eq (lhs : Int → CFloat) (B S F : Nat)
    (hB : (B : Int) ≤ INT_MAX) (hS : (S : Int) ≤ INT_MAX) :
    print_last_hidden_state lhs B S F = (spec_hidden_preview lhs B S F, true) := by
  have hb := batch_loop_in_range lhs B S F hB hS B (B + 1) 0 (by simp) (by omega)
  simp only [Nat.cast_zero] at hb
  simp only [print_last_hidden_state, spec_hidden_preview, Int.toNat_ofNat, hb,
    List.range_eq_range', if_true]

theorem pooler_loop_in_range (po : Int → CFloat) (F : Nat) (hF : (F : Int) ≤ INT_MAX) :
    ∀ (n fuel k : Nat), k + n = F → n < fuel →
      pooler_loop po F fuel k
        = ((List.range' k (min F 10 - min k 10)).flatMap (fun i =>
            [Event.load "pooler_output" (i : Int), Event.printf "%0.4e, " [Arg.float (po i)]]),
           true) := by
  intro n
  induction n with
  | zero =>
    intro fuel k hk hfuel
    obtain ⟨f, rfl⟩ : ∃ f, fuel = f + 1 := ⟨fuel - 1, by omega⟩
    have hlt : ¬ (k : Int) < (F : Int) := by omega
    have : min F 10 - min k 10 = 0 := by omega
    simp [pooler_loop, hlt, this]
  | succ n ih =>
    intro fuel k hk hfuel
    obtain ⟨f, rfl⟩ : ∃ f, fuel = f + 1 := ⟨fuel - 1, by omega⟩
    have hlt : (k : Int) < (F : Int) := by omega
    have hnext : to_int ((k : Int) + 1) = ((k + 1 : Nat) : Int) := by
      rw [to_int_of_range]
      · push_cast; rfl
      · unfold INT_MIN; omega
      · omega
    have ih2 := ih f (k + 1) (by omega) (by omega)
    by_cases h10 : k < 10
    · have h10i : (k : Int) < 10 := by omega
      have hlen : min F 10 - min k 10 = (min F 10 - min (k + 1) 10) + 1 := by omega
      simp only [pooler_loop, hlt, h10i, if_true, hnext, ih2]
      rw [hlen, List.range'_succ]
      simp
    · have h10i : ¬ (k : Int) < 10 := by omega
      have hlen : min F 10 - min k 10 = 0 := by omega
      have hlen2 : min F 10 - min (k + 1) 10 = 0 := by omega
      simp only [pooler_loop, hlt, h10i, if_true, if_false, hnext, ih2, hlen, hlen2]
      simp

theorem print_pooler_output_eq (po : Int → CFloat) (F : Nat) (hF : (F : Int) ≤ INT_MAX) :
    print_pooler_output po F = (spec_pooler_preview po F, true) := by
  have hp := pooler_loop_in_range po F hF F (F + 1) 0 (by simp) (by omega)
  simp only [Nat.cast_zero] at hp
  simp only [print_pooler_output, spec_pooler_preview, Int.toNat_ofNat, hp,
    List.range_eq_range', if_true]
  simp

/-! ## The preview loops, for a dimension that does not fit in an `int` -/

theorem token_loop_not_left (lhs : Int → CFloat) (d1 d2 b : Int) (h : INT_MAX < d1) :
    ∀ (fuel : Nat) (t : Int), INT_MIN ≤ t → t ≤ INT_MAX →
      (token_loop lhs d1 d2 b fuel t).2 = false := by
  intro fuel
  induction fuel with
  | zero => intro t _ _; rfl
  | succ fuel ih =>
    intro t h1 h2
    have hlt : t < d1 := by omega
    simp only [token_loop, hlt, if_true]
    exact ih _ (to_int_range _).1 (to_int_range _).2

theorem pooler_loop_not_left (po : Int → CFloat) (d1 : Int) (h : INT_MAX < d1) :
    ∀ (fuel : Nat) (i : Int), INT_MIN ≤ i → i ≤ INT_MAX →
      (pooler_loop po d1 fuel i).2 = false := by
  intro fuel
  induction fuel with
  | zero => intro i _ _; rfl
  | succ fuel ih =>
    intro i h1 h2
    have hlt : i < d1 := by omega
    simp only [pooler_loop, hlt, if_true]
    exact ih _ (to_int_range _).1 (to_int_range _).2

theorem token_loop_mem_skip (lhs : Int → CFloat) (d1 d2 b : Int) (h : INT_MAX < d1)
    (e : Event) :
    ∀ (n k fuel : Nat), ((k + n : Nat) : Int) ≤ INT_MAX →
      e ∈ (token_loop lhs d1 d2 b fuel ((k + n : Nat) : Int)).1 →
      e ∈ (token_loop lhs d1 d2 b (n + fuel) (k : Int)).1 := by
  intro n
  induction n with
  | zero => intro k fuel _ he; simpa using he
  | succ n ih =>
    intro k fuel hmax he
    have hfuel : n + 1 + fuel = (n + fuel) + 1 := by omega
    have hlt : (k : Int) < d1 := by omega
    have hnext : to_int ((k : Int) + 1) = ((k + 1 : Nat) : Int) := by
      rw [to_int_of_range]
      · push_cast; rfl
      · unfold INT_MIN; omega
      · omega
    rw [hfuel]
    simp only [token_loop, hlt, if_true, hnext, List.mem_append]
    right
    apply ih (k + 1) fuel
    · have : k + 1 + n = k + (n + 1) := by omega
      rw [this]; exact hmax
    · have : k + 1 + n = k + (n + 1) := by omega
      rw [this]; exact he

theorem pooler_loop_mem_skip (po : Int → CFloat) (d1 : Int) (h : INT_MAX < d1) (e : Event) :
    ∀ (n k fuel : Nat), ((k + n : Nat) : Int) ≤ INT_MAX →
      e ∈ (pooler_loop po d1 fuel ((k + n : Nat) : Int)).1 →
      e ∈ (pooler_loop po d1 (n + fuel) (k : Int)).1 := by
  intro n
  induction n with
  | zero => intro k fuel _ he; simpa using he
  | succ n ih =>
    intro k fuel hmax he
    have hfuel : n + 1 + fuel = (n + fuel) + 1 := by omega
    have hlt : (k : Int) < d1 := by omega
    have hnext : to_int ((k : Int) + 1) = ((k + 1 : Nat) : Int) := by
      rw [to_int_of_range]
      · push_cast; rfl
      · unfold INT_MIN; omega
      · omega
    rw [hfuel]
    simp only [pooler_loop, hlt, if_true, hnext, List.mem_append]
    right
    apply ih (k + 1) fuel
    · have : k + 1 + n = k + (n + 1) := by omega
      rw [this]; exact hmax
    · have : k + 1 + n = k + (n + 1) := by omega
      rw [this]; exact he

theorem to_int_succ_max : to_int (2147483647 + 1) = -2147483648 := by
  unfold to_int
  omega

/-- When the sequence dimension exceeds `INT_MAX` the token counter wraps around to
`INT_MIN` after `2^31` lines and the loop goes on from there: the line of position
`INT_MIN` is printed. -/
theorem token_loop_wraps (lhs : Int → CFloat) (d1 d2 b : Int) (h : INT_MAX < d1) (fuel : Nat) :
    Event.load "last_hidden_state" (hidden_state_index d1 d2 b INT_MIN 0)
      ∈ (token_loop lhs d1 d2 b (2147483647 + (fuel + 2)) 0).1 := by
  have hskip := token_loop_mem_skip lhs d1 d2 b h
    (Event.load "last_hidden_state" (hidden_state_index d1 d2 b INT_MIN 0))
    2147483647 0 (fuel + 2) (by unfold INT_MAX; omega)
  simp only [Nat.zero_add, Nat.cast_zero] at hskip
  apply hskip
  have h1 : ((2147483647 : Nat) : Int) < d1 := by unfold INT_MAX at h; omega
  have h2 : (-2147483648 : Int) < d1 := by unfold INT_MAX at h; omega
  have e1 : ((2147483647 : Nat) : Int) + 1 = 2147483647 + 1 := by norm_num
  simp only [token_loop, h1, if_true, e1, to_int_succ_max, h2, feature_loop, INT_MIN]
  simp

/-- When the feature dimension of the second output exceeds `INT_MAX` the counter wraps
around to `INT_MIN` after `2^31` iterations and the loop goes on from there: the element at
offset `INT_MIN` is read. -/
theorem pooler_loop_wraps (po : Int → CFloat) (d1 : Int) (h : INT_MAX < d1) (fuel : Nat) :
    Event.load "pooler_output" INT_MIN ∈ (pooler_loop po d1 (2147483647 + (fuel + 2)) 0).1 := by
  have hskip := pooler_loop_mem_skip po d1 h (Event.load "pooler_output" INT_MIN)
    2147483647 0 (fuel + 2) (by unfold INT_MAX; omega)
  simp only [Nat.zero_add, Nat.cast_zero] at hskip
  apply hskip
  have h1 : ((2147483647 : Nat) : Int) < d1 := by unfold INT_MAX at h; omega
  have h2 : (-2147483648 : Int) < d1 := by unfold INT_MAX at h; omega
  have e1 : ((2147483647 : Nat) : Int) + 1 = 2147483647 + 1 := by norm_num
  simp only [pooler_loop, h1, if_true, e1, to_int_succ_max, h2, INT_MIN]
  simp

theorem pooler_loop_no_ellipsis (po : Int → CFloat) (d1 : Int) :
    ∀ (fuel : Nat) (i : Int), Event.printf "...]\n" [] ∉ (pooler_loop po d1 fuel i).1 := by
  intro fuel
  induction fuel with
  | zero => intro i; simp [pooler_loop]
  | succ fuel ih =>
    intro i
    simp only [pooler_loop]
    split
    · simp only [List.mem_append, not_or]
      refine ⟨?_, ih _⟩
      split <;> simp
    · simp

theorem print_pooler_output_wraps (po : Int → CFloat) (d1 : Int) (h : INT_MAX < d1) :
    (print_pooler_output po d1).2 = false
    ∧ Event.load "pooler_output" INT_MIN ∈ (print_pooler_output po d1).1
    ∧ Event.printf "...]\n" [] ∉ (print_pooler_output po d1).1 := by
  have hnl := pooler_loop_not_left po d1 h (d1.toNat + 1) 0 (by unfold INT_MIN; omega)
    (by unfold INT_MAX; omega)
  have hfuel : d1.toNat + 1 = 2147483647 + ((d1.toNat - 2147483648) + 2) := by
    unfold INT_MAX at h; omega
  have hw := pooler_loop_wraps po d1 h (d1.toNat - 2147483648)
  rw [← hfuel] at hw
  have hne := pooler_loop_no_ellipsis po d1 (d1.toNat + 1) 0
  simp only [print_pooler_output, hnl, Bool.false_eq_true, if_false, List.mem_append,
    List.mem_singleton, reduceCtorEq, false_or, true_and]
  refine ⟨hw, ?_⟩
  simp only [not_or]
  exact ⟨by simp, hne⟩

theorem print_last_hidden_state_wraps (lhs : Int → CFloat) (d0 d1 d2 : Int) (h0 : 0 < d0)
    (h1 : INT_MAX < d1) :
    (print_last_hidden_state lhs d0 d1 d2).2 = false
    ∧ Event.load "last_hidden_state" (hidden_state_index d1 d2 0 INT_MIN 0)
        ∈ (print_last_hidden_state lhs d0 d1 d2).1 := by
  have hnl := token_loop_not_left lhs d1 d2 0 h1 (d1.toNat + 1) 0 (by unfold INT_MIN; omega)
    (by unfold INT_MAX; omega)
  have hfuel : d1.toNat + 1 = 2147483647 + ((d1.toNat - 2147483648) + 2) := by
    unfold INT_MAX at h1; omega
  have hw := token_loop_wraps lhs d1 d2 0 h1 (d1.toNat - 2147483648)
  rw [← hfuel] at hw
  have hb : batch_loop lhs d0 d1 d2 (d0.toNat + 1) 0
      = ([Event.printf "\n[\n  [\n" []] ++ (token_loop lhs d1 d2 0 (d1.toNat + 1) 0).1,
          false) := by
    simp only [batch_loop, h0, if_true, hnl, Bool.false_eq_true, if_false]
  simp only [print_last_hidden_state, hb, Bool.false_eq_true, if_false, List.mem_append,
    true_and]
  right
  right
  exact hw

theorem countP_flatMap_const {α β : Type} (p : β → Bool) (f : α → List β) (k : Nat) :
    ∀ (l : List α), (∀ a ∈ l, (f a).countP p = k) → (l.flatMap f).countP p = l.length * k
  | [], _ => by simp
  | a :: l, h => by
    have h1 := h a (by simp)
    have h2 := countP_flatMap_const p f k l (fun x hx => h x (by simp [hx]))
    simp only [List.flatMap_cons, List.countP_append, h1, h2, List.length_cons]
    ring

theorem mem_load_hidden_preview (lhs : Int → CFloat) (B S F : Nat)
    (hB : (B : Int) ≤ INT_MAX) (hS : (S : Int) ≤ INT_MAX) (idx : Int) :
    Event.load "last_hidden_state" idx ∈ (print_last_hidden_state lhs B S F).1 ↔
      ∃ b t f : Nat, b < B ∧ t < S ∧ f < 3 ∧ idx = (b : Int) * S * F + t * F + f := by
  rw [print_last_hidden_state_eq lhs B S F hB hS]
  simp only [spec_hidden_preview, spec_token_line, List.mem_append, List.mem_flatMap,
    List.mem_range, List.mem_cons, List.mem_singleton, Event.load.injEq, true_and, reduceCtorEq,
    false_or, or_false, List.not_mem_nil]
  constructor
  · rintro ⟨b, hb, t, ht, h⟩
    rcases h with h | h | h
    · exact ⟨b, t, 0, hb, ht, by omega, by simpa using h⟩
    · exact ⟨b, t, 1, hb, ht, by omega, by simpa using h⟩
    · exact ⟨b, t, 2, hb, ht, by omega, by simpa using h⟩
  · rintro ⟨b, t, f, hb, ht, hf, h⟩
    refine ⟨b, hb, t, ht, ?_⟩
    have : f = 0 ∨ f = 1 ∨ f = 2 := by omega
    rcases this with rfl | rfl | rfl
    · left; simpa using h
    · right; left; simpa using h
    · right; right; simpa using h

/-! ## Stepping through a run that returns -/

theorem bind_call_val {α β : Type} {c : Call} {r : Except String α} {f : α → Proc β} {b : β}
    (h : (Proc.bind (ORT_ABORT_ON_ERROR c r) f).val = some b) :
    ∃ a, r = .ok a ∧ (f a).val = some b := by
  cases r with
  | error msg => simp [Proc.bind, ORT_ABORT_ON_ERROR] at h
  | ok a => exact ⟨a, rfl, by simpa [Proc.bind, ORT_ABORT_ON_ERROR] using h⟩

theorem bind_assert_val {β : Type} {expr : String} {holds : Bool} {f : Unit → Proc β} {b : β}
    (h : (Proc.bind (assert expr holds) f).val = some b) :
    holds = true ∧ (f ()).val = some b := by
  cases holds with
  | false => simp [Proc.bind, assert] at h
  | true => exact ⟨rfl, by simpa [Proc.bind, assert] using h⟩

theorem bind_emit_val {β : Type} (es : List Event) (f : Unit → Proc β) :
    (Proc.bind (emit es) f).val = (f ()).val := by
  simp [Proc.bind, emit]

theorem bind_vla_val {β : Type} {fits : Bool} {size : Nat} {f : Unit → Proc β} {b : β}
    (h : (Proc.bind (declare_vla fits size) f).val = some b) :
    fits = true ∧ (f ()).val = some b := by
  cases fits with
  | false => simp [Proc.bind, declare_vla] at h
  | true => exact ⟨rfl, by simpa [Proc.bind, declare_vla] using h⟩

theorem bind_loop_val {β : Type} {p : List Event × Bool} {f : Unit → Proc β} {b : β}
    (h : (Proc.bind (run_loop p) f).val = some b) :
    p.2 = true ∧ (f ()).val = some b := by
  cases hp : p.2 with
  | false => simp [Proc.bind, run_loop, hp] at h
  | true => exact ⟨rfl, by simpa [Proc.bind, run_loop, hp] using h⟩

theorem verify_returns {ort : OrtApi} {session : Handle} {u : Unit}
    (h : (verify_input_output_count ort session).val = some u) :
    ort.SessionGetInputCount = .ok 3 ∧ ort.SessionGetOutputCount = .ok 2 := by
  simp only [verify_input_output_count, bind_eq] at h
  obtain ⟨c1, h1, h⟩ := bind_call_val h
  obtain ⟨a1, h⟩ := bind_assert_val h
  obtain ⟨c2, h2, h⟩ := bind_call_val h
  have a2 : (c2 == 2) = true := by
    cases hc : (c2 == 2) with
    | true => rfl
    | false => simp [assert, hc] at h
  simp only [beq_iff_eq] at a1 a2
  subst a1 a2
  exact ⟨h1, h2⟩

theorem verify_ok {ort : OrtApi} (session : Handle)
    (h1 : ort.SessionGetInputCount = .ok 3) (h2 : ort.SessionGetOutputCount = .ok 2) :
    verify_input_output_count ort session
      = ⟨[.call (.SessionGetInputCount session) none,
          .call (.SessionGetOutputCount session) none], some ()⟩ := by
  simp [verify_input_output_count, h1, h2, ORT_ABORT_ON_ERROR, assert, Proc.bind]

theorem verify_stops (ort : OrtApi) (session : Handle)
    (h : (verify_input_output_count ort session).val = none) :
    (verify_input_output_count ort session).trace.getLast? = some .abort := by
  revert h
  simp only [verify_input_output_count, bind_eq]
  cases ort.SessionGetInputCount with
  | error msg => simp [ORT_ABORT_ON_ERROR, Proc.bind]
  | ok c1 =>
    by_cases a1 : c1 = 3
    · subst a1
      cases ort.SessionGetOutputCount with
      | error msg => simp [ORT_ABORT_ON_ERROR, Proc.bind, assert]
      | ok c2 =>
        by_cases a2 : c2 = 2
        · simp [ORT_ABORT_ON_ERROR, Proc.bind, assert, a2]
        · simp [ORT_ABORT_ON_ERROR, Proc.bind, assert, a2]
    · simp [ORT_ABORT_ON_ERROR, Proc.bind, assert, a1]

theorem run_inference_of_answered {ort : OrtApi} {a : Answers} (h : Answered ort a)
    (hp0 : Preview0Finishes a) (hp1 : Preview1Finishes a)
    (session : Handle) (tokens : List Cell) (num_tokens : Nat) :
    run_inference ort session tokens num_tokens
      = ⟨inference_events session tokens num_tokens a ++ report0_events a ++ report1_events a
          ++ inference_releases a, some 0⟩ := by
  obtain ⟨⟨h1, h2, n2, ⟨i3, h3, n3⟩, s1, h4, n4, ⟨i5, h5, n5⟩, s2, h6, n6, ⟨i7, h7, n7⟩,
    h8, n8, n9⟩, ⟨h10, h11⟩, ⟨h12, h13⟩, ⟨h14, h15⟩, h16, h17⟩ := h
  unfold Preview0Finishes at hp0
  unfold Preview1Finishes at hp1
  simp [run_inference, h1, h2, h3, h4, h5, h6, h7, h8, h10, h11, h12, h13, h14, h15, h16, h17,
    n2, n3, n4, n5, n6, n7, n8, n9, s1, s2, hp0, hp1, ORT_ABORT_ON_ERROR, assert, emit,
    declare_vla, run_loop, Proc.bind,
    inference_events, report0_events, report1_events, inference_releases]

theorem run_inference_returns {ort : OrtApi} {session : Handle} {tokens : List Cell}
    {num_tokens : Nat} {r : Int} (h : (run_inference ort session tokens num_tokens).val = some r) :
    ∃ a : Answers, Answered ort a ∧ Preview0Finishes a ∧ Preview1Finishes a := by
  simp only [run_inference, bind_eq] at h
  obtain ⟨mi, h1, h⟩ := bind_call_val h
  obtain ⟨ids, h2, h⟩ := bind_call_val h
  obtain ⟨n2, h⟩ := bind_assert_val h
  obtain ⟨i3, h3, h⟩ := bind_call_val h
  obtain ⟨n3, h⟩ := bind_assert_val h
  obtain ⟨s1, h⟩ := bind_vla_val h
  obtain ⟨mask, h4, h⟩ := bind_call_val h
  obtain ⟨n4, h⟩ := bind_assert_val h
  obtain ⟨i5, h5, h⟩ := bind_call_val h
  obtain ⟨n5, h⟩ := bind_assert_val h
  obtain ⟨s2, h⟩ := bind_vla_val h
  obtain ⟨types, h6, h⟩ := bind_call_val h
  obtain ⟨n6, h⟩ := bind_assert_val h
  obtain ⟨i7, h7, h⟩ := bind_call_val h
  obtain ⟨n7, h⟩ := bind_assert_val h
  rw [bind_emit_val] at h
  obtain ⟨outs, h8, h⟩ := bind_call_val h
  obtain ⟨_, h⟩ := bind_assert_val h
  obtain ⟨n8, h⟩ := bind_assert_val h
  obtain ⟨n9, h⟩ := bind_assert_val h
  obtain ⟨lhs, h10, h⟩ := bind_call_val h
  obtain ⟨sh0, h11, h⟩ := bind_call_val h
  obtain ⟨dc0, h12, h⟩ := bind_call_val h
  obtain ⟨n12, h⟩ := bind_assert_val h
  obtain ⟨d, h13, h⟩ := bind_call_val h
  rw [bind_emit_val] at h
  obtain ⟨hp0, h⟩ := bind_loop_val h
  obtain ⟨po, h14, h⟩ := bind_call_val h
  obtain ⟨sh1, h15, h⟩ := bind_call_val h
  obtain ⟨dc1, h16, h⟩ := bind_call_val h
  obtain ⟨n16, h⟩ := bind_assert_val h
  obtain ⟨e, h17, h⟩ := bind_call_val h
  rw [bind_emit_val] at h
  obtain ⟨hp1, h⟩ := bind_loop_val h
  simp only [bne_iff_ne, ne_eq, beq_iff_eq] at n2 n3 n4 n5 n6 n7 n8 n9 n12 n16
  subst n12 n16
  exact ⟨⟨mi, ids, mask, types, outs.1, outs.2, lhs, sh0, d, po, sh1, e⟩,
    ⟨⟨h1, h2, n2, ⟨i3, h3, n3⟩, s1, h4, n4, ⟨i5, h5, n5⟩, s2, h6, n6, ⟨i7, h7, n7⟩,
      h8, n8, n9⟩, ⟨h10, h11⟩, ⟨h12, h13⟩, ⟨h14, h15⟩, h16, h17⟩, hp0, hp1⟩

theorem main_of_answered {ort : OrtApi} {env session_options session : Handle} {a : Answers}
    (hs : StartupAnswered ort env session_options session) (ha : Answered ort a)
    (hp0 : Preview0Finishes a) (hp1 : Preview1Finishes a)
    (argc : Int) (argv : List String) (hargc : 2 ≤ argc) :
    main ort argc argv
      = ⟨startup_events env session_options session (argv.getD 1 "")
          ++ (inference_events session main_tokens 7 a ++ report0_events a ++ report1_events a
              ++ inference_releases a)
          ++ main_releases env session_options session, some 0⟩ := by
  obtain ⟨h1, n1, h2, h3, h4, h5⟩ := hs
  have hv := verify_ok session h4 h5
  have hr := run_inference_of_answered ha hp0 hp1 session main_tokens 7
  simp [main, hargc, h1, n1, h2, h3, hv, hr, ORT_ABORT_ON_ERROR, assert, emit, Proc.bind,
    startup_events, main_releases]

theorem main_returns {ort : OrtApi} {argc : Int} {argv : List String} {r : Int}
    (h : (main ort argc argv).val = some r) :
    2 ≤ argc ∧ ∃ env session_options session a,
      StartupAnswered ort env session_options session ∧ Answered ort a
      ∧ Preview0Finishes a ∧ Preview1Finishes a := by
  simp only [main, bind_eq] at h
  rw [bind_emit_val] at h
  by_cases hargc : argc ≥ 2
  · simp only [hargc, if_true] at h
    rw [pure_bind] at h
    obtain ⟨env, h1, h⟩ := bind_call_val h
    obtain ⟨n1, h⟩ := bind_assert_val h
    obtain ⟨so, h2, h⟩ := bind_call_val h
    obtain ⟨sess, h3, h⟩ := bind_call_val h
    cases hv : (verify_input_output_count ort sess).val with
    | none => simp [Proc.bind, hv] at h
    | some u =>
      obtain ⟨h4, h5⟩ := verify_returns hv
      rw [bind_val_some _ _ u hv] at h
      simp only at h
      rw [bind_emit_val] at h
      cases hr : (run_inference ort sess main_tokens 7).val with
      | none => simp [Proc.bind, hr] at h
      | some r2 =>
        obtain ⟨a, ha, hp0, hp1⟩ := run_inference_returns hr
        simp only [bne_iff_ne, ne_eq] at n1
        exact ⟨hargc, env, so, sess, a, ⟨h1, n1, h2, h3, h4, h5⟩, ha, hp0, hp1⟩
  · simp [hargc, halt, Proc.bind] at h

/-! ## The events of the previews, for arbitrary reported dimensions -/

theorem feature_loop_preview (lhs : Int → CFloat) (d1 d2 b t : Int) :
    ∀ (fuel : Nat) (f : Int), ∀ e ∈ feature_loop lhs d1 d2 b t fuel f, is_preview0 e = true := by
  intro fuel
  induction fuel with
  | zero => intro f e he; simp [feature_loop] at he
  | succ fuel ih =>
    intro f e he
    simp only [feature_loop] at he
    split at he
    · simp only [List.cons_append, List.nil_append, List.mem_cons] at he
      rcases he with rfl | rfl | he
      · rfl
      · rfl
      · exact ih _ e he
    · simp at he

theorem token_loop_preview (lhs : Int → CFloat) (d1 d2 b : Int) :
    ∀ (fuel : Nat) (t : Int), ∀ e ∈ (token_loop lhs d1 d2 b fuel t).1,
      is_preview0 e = true := by
  intro fuel
  induction fuel with
  | zero => intro t e he; simp [token_loop] at he
  | succ fuel ih =>
    intro t e he
    simp only [token_loop] at he
    split at he
    · simp only [List.mem_append, List.mem_singleton] at he
      rcases he with ((rfl | he) | rfl) | he
      · rfl
      · exact feature_loop_preview lhs d1 d2 b t 3 0 e he
      · rfl
      · exact ih _ e he
    · simp at he

theorem batch_loop_preview (lhs : Int → CFloat) (d0 d1 d2 : Int) :
    ∀ (fuel : Nat) (b : Int), ∀ e ∈ (batch_loop lhs d0 d1 d2 fuel b).1,
      is_preview0 e = true := by
  intro fuel
  induction fuel with
  | zero => intro b e he; simp [batch_loop] at he
  | succ fuel ih =>
    intro b e he
    simp only [batch_loop] at he
    split at he
    · split at he
      · simp only [List.mem_append, List.mem_singleton] at he
        rcases he with ((rfl | he) | rfl) | he
        · rfl
        · exact token_loop_preview lhs d1 d2 b _ 0 e he
        · rfl
        · exact ih _ e he
      · simp only [List.mem_append, List.mem_singleton] at he
        rcases he with rfl | he
        · rfl
        · exact token_loop_preview lhs d1 d2 b _ 0 e he
    · simp at he

theorem print_last_hidden_state_preview (lhs : Int → CFloat) (d0 d1 d2 : Int) :
    ∀ e ∈ (print_last_hidden_state lhs d0 d1 d2).1, is_preview0 e = true := by
  intro e he
  simp only [print_last_hidden_state] at he
  split at he
  · simp only [List.mem_append, List.mem_singleton] at he
    rcases he with (rfl | he) | rfl
    · rfl
    · exact batch_loop_preview lhs d0 d1 d2 _ 0 e he
    · rfl
  · simp only [List.mem_append, List.mem_singleton] at he
    rcases he with rfl | he
    · rfl
    · exact batch_loop_preview lhs d0 d1 d2 _ 0 e he

theorem pooler_loop_preview (po : Int → CFloat) (d1 : Int) :
    ∀ (fuel : Nat) (i : Int), ∀ e ∈ (pooler_loop po d1 fuel i).1, is_preview1 e = true := by
  intro fuel
  induction fuel with
  | zero => intro i e he; simp [pooler_loop] at he
  | succ fuel ih =>
    intro i e he
    simp only [pooler_loop] at he
    split at he
    · simp only [List.mem_append] at he
      rcases he with he | he
      · split at he
        · simp only [List.mem_cons, List.mem_singleton, List.not_mem_nil, or_false] at he
          rcases he with rfl | rfl
          · rfl
          · rfl
        · simp at he
      · exact ih _ e he
    · simp at he

theorem print_pooler_output_preview (po : Int → CFloat) (d1 : Int) :
    ∀ e ∈ (print_pooler_output po d1).1, is_preview1 e = true := by
  intro e he
  simp only [print_pooler_output] at he
  split at he
  · simp only [List.mem_append, List.mem_singleton] at he
    rcases he with (rfl | he) | rfl
    · rfl
    · exact pooler_loop_preview po d1 _ 0 e he
    · rfl
  · simp only [List.mem_append, List.mem_singleton] at he
    rcases he with rfl | he
    · rfl
    · exact pooler_loop_preview po d1 _ 0 e he

/-! ## Properties of every event of a run -/

theorem allEv_call {α β : Type} {Q : Event → Prop} {c : Call} {r : Except String α}
    {f : α → Proc β} (hq : Quiet Q) (hc : ∀ st, Q (.call c st))
    (hk : ∀ a, r = .ok a → AllEv Q (f a)) :
    AllEv Q (Proc.bind (ORT_ABORT_ON_ERROR c r) f) := by
  obtain ⟨q1, q2, q3, q4, _⟩ := hq
  cases r with
  | error msg =>
    intro e he
    simp only [Proc.bind, ORT_ABORT_ON_ERROR, List.mem_cons, List.mem_singleton,
      List.not_mem_nil, or_false] at he
    rcases he with rfl | rfl | rfl | rfl | rfl
    · exact hc _
    · exact q1
    · exact q4 _ _
    · exact q2
    · exact q3
  | ok a =>
    intro e he
    simp only [Proc.bind, ORT_ABORT_ON_ERROR, List.mem_append, List.mem_singleton] at he
    rcases he with rfl | he
    · exact hc _
    · exact hk a rfl e he

theorem allEv_assert {β : Type} {Q : Event → Prop} {expr : String} {holds : Bool}
    {f : Unit → Proc β} (hq : Quiet Q) (hk : holds = true → AllEv Q (f ())) :
    AllEv Q (Proc.bind (assert expr holds) f) := by
  obtain ⟨_, _, q3, _, q5⟩ := hq
  cases holds with
  | false =>
    intro e he
    simp only [Proc.bind, assert, List.mem_cons, List.mem_singleton, List.not_mem_nil,
      or_false, Bool.false_eq_true, if_false] at he
    rcases he with rfl | rfl
    · exact q5 _
    · exact q3
  | true =>
    intro e he
    simp only [Proc.bind, assert, if_true, List.nil_append] at he
    exact hk rfl e he

theorem allEv_emit {β : Type} {Q : Event → Prop} {es : List Event} {f : Unit → Proc β}
    (hes : ∀ e ∈ es, Q e) (hk : AllEv Q (f ())) :
    AllEv Q (Proc.bind (emit es) f) := by
  intro e he
  simp only [Proc.bind, emit, List.mem_append] at he
  rcases he with he | he
  · exact hes e he
  · exact hk e he

theorem allEv_vla {β : Type} {Q : Event → Prop} {fits : Bool} {size : Nat}
    {f : Unit → Proc β} (hq : Q (.stack_overflow size)) (hk : fits = true → AllEv Q (f ())) :
    AllEv Q (Proc.bind (declare_vla fits size) f) := by
  cases fits with
  | false =>
    intro e he
    simp only [Proc.bind, declare_vla, Bool.false_eq_true, if_false, List.mem_singleton] at he
    subst he
    exact hq
  | true =>
    intro e he
    simp only [Proc.bind, declare_vla, if_true, List.nil_append] at he
    exact hk rfl e he

theorem allEv_loop {β : Type} {Q : Event → Prop} {p : List Event × Bool} {f : Unit → Proc β}
    (hes : ∀ e ∈ p.1, Q e) (hk : p.2 = true → AllEv Q (f ())) :
    AllEv Q (Proc.bind (run_loop p) f) := by
  cases hp : p.2 with
  | false =>
    intro e he
    simp only [Proc.bind, run_loop, hp, Bool.false_eq_true, if_false] at he
    exact hes e he
  | true =>
    intro e he
    simp only [Proc.bind, run_loop, hp, if_true, List.mem_append] at he
    rcases he with he | he
    · exact hes e he
    · exact hk hp e he

theorem allEv_pure {α : Type} {Q : Event → Prop} (a : α) : AllEv Q (pure a : Proc α) := by
  intro e he
  simp at he

/-! ## Failed calls -/

theorem failStop_bind {α β : Type} {m : Proc α} {f : α → Proc β} (hm : FailStop m)
    (hf : ∀ a, m.val = some a → FailStop (f a)) : FailStop (Proc.bind m f) := by
  cases hv : m.val with
  | none =>
    rw [bind_val_none m f hv]
    rcases hm with hm | ⟨_, hm⟩
    · exact Or.inl hm
    · exact Or.inr ⟨rfl, hm⟩
  | some a =>
    rw [bind_val_some m f a hv]
    rcases hm with hm | ⟨hn, _⟩
    · rcases hf a hv with h | ⟨hn, pre, c, msg, hpre, ht⟩
      · left
        intro e he
        simp only [List.mem_append] at he
        rcases he with he | he
        · exact hm e he
        · exact h e he
      · right
        refine ⟨hn, m.trace ++ pre, c, msg, ?_, ?_⟩
        · intro e he
          simp only [List.mem_append] at he
          rcases he with he | he
          · exact hm e he
          · exact hpre e he
        · simp only [ht, List.append_assoc]
    · rw [hv] at hn
      cases hn

theorem failStop_call {α : Type} (c : Call) (r : Except String α) :
    FailStop (ORT_ABORT_ON_ERROR c r) := by
  cases r with
  | error msg =>
    right
    exact ⟨rfl, [], c, msg, by simp, rfl⟩
  | ok a =>
    left
    intro e he
    simp only [ORT_ABORT_ON_ERROR, List.mem_singleton] at he
    subst he
    rfl

theorem failStop_assert (expr : String) (holds : Bool) : FailStop (assert expr holds) := by
  left
  cases holds with
  | false =>
    intro e he
    simp only [assert, Bool.false_eq_true, if_false, List.mem_cons, List.mem_singleton,
      List.not_mem_nil, or_false] at he
    rcases he with rfl | rfl
    · rfl
    · rfl
  | true =>
    intro e he
    simp [assert] at he

theorem failStop_emit (es : List Event) (h : ∀ e ∈ es, is_failed_call e = false) :
    FailStop (emit es) :=
  Or.inl h

theorem failStop_halt {α : Type} (es : List Event) (h : ∀ e ∈ es, is_failed_call e = false) :
    FailStop (halt es : Proc α) :=
  Or.inl h

theorem failStop_vla (fits : Bool) (size : Nat) : FailStop (declare_vla fits size) := by
  left
  cases fits with
  | false =>
    intro e he
    simp only [declare_vla, Bool.false_eq_true, if_false, List.mem_singleton] at he
    subst he
    rfl
  | true =>
    intro e he
    simp [declare_vla] at he

theorem failStop_loop (p : List Event × Bool) (h : ∀ e ∈ p.1, is_failed_call e = false) :
    FailStop (run_loop p) :=
  Or.inl h

theorem failStop_pure {α : Type} (a : α) : FailStop (pure a : Proc α) := by
  left
  intro e he
  simp at he

theorem preview0_not_failed (e : Event) (h : is_preview0 e = true) : is_failed_call e = false := by
  cases e <;> simp_all [is_preview0, is_failed_call]

theorem preview1_not_failed (e : Event) (h : is_preview1 e = true) : is_failed_call e = false := by
  cases e <;> simp_all [is_preview1, is_failed_call]

theorem failStop_verify (ort : OrtApi) (session : Handle) :
    FailStop (verify_input_output_count ort session) := by
  simp only [verify_input_output_count, bind_eq]
  refine failStop_bind (failStop_call _ _) (fun _ _ => ?_)
  refine failStop_bind (failStop_assert _ _) (fun _ _ => ?_)
  refine failStop_bind (failStop_call _ _) (fun _ _ => ?_)
  exact failStop_assert _ _

theorem failStop_run_inference (ort : OrtApi) (session : Handle) (tokens : List Cell)
    (num_tokens : Nat) : FailStop (run_inference ort session tokens num_tokens) := by
  simp only [run_inference, bind_eq]
  refine failStop_bind (failStop_call _ _) (fun _ _ => ?_)
  refine failStop_bind (failStop_call _ _) (fun _ _ => ?_)
  refine failStop_bind (failStop_assert _ _) (fun _ _ => ?_)
  refine failStop_bind (failStop_call _ _) (fun _ _ => ?_)
  refine failStop_bind (failStop_assert _ _) (fun _ _ => ?_)
  refine failStop_bind (failStop_vla _ _) (fun _ _ => ?_)
  refine failStop_bind (failStop_call _ _) (fun _ _ => ?_)
  refine failStop_bind (failStop_assert _ _) (fun _ _ => ?_)
  refine failStop_bind (failStop_call _ _) (fun _ _ => ?_)
  refine failStop_bind (failStop_assert _ _) (fun _ _ => ?_)
  refine failStop_bind (failStop_vla _ _) (fun _ _ => ?_)
  refine failStop_bind (failStop_call _ _) (fun _ _ => ?_)
  refine failStop_bind (failStop_assert _ _) (fun _ _ => ?_)
  refine failStop_bind (failStop_call _ _) (fun _ _ => ?_)
  refine failStop_bind (failStop_assert _ _) (fun _ _ => ?_)
  refine failStop_bind (failStop_emit _ (by simp [is_failed_call])) (fun _ _ => ?_)
  refine failStop_bind (failStop_call _ _) (fun _ _ => ?_)
  refine failStop_bind (failStop_assert _ _) (fun _ _ => ?_)
  refine failStop_bind (failStop_assert _ _) (fun _ _ => ?_)
  refine failStop_bind (failStop_assert _ _) (fun _ _ => ?_)
  refine failStop_bind (failStop_call _ _) (fun _ _ => ?_)
  refine failStop_bind (failStop_call _ _) (fun _ _ => ?_)
  refine failStop_bind (failStop_call _ _) (fun _ _ => ?_)
  refine failStop_bind (failStop_assert _ _) (fun _ _ => ?_)
  refine failStop_bind (failStop_call _ _) (fun _ _ => ?_)
  refine failStop_bind (failStop_emit _ (by simp [is_failed_call])) (fun _ _ => ?_)
  refine failStop_bind (failStop_loop _ (fun e he =>
    preview0_not_failed e (print_last_hidden_state_preview _ _ _ _ e he))) (fun _ _ => ?_)
  refine failStop_bind (failStop_call _ _) (fun _ _ => ?_)
  refine failStop_bind (failStop_call _ _) (fun _ _ => ?_)
  refine failStop_bind (failStop_call _ _) (fun _ _ => ?_)
  refine failStop_bind (failStop_assert _ _) (fun _ _ => ?_)
  refine failStop_bind (failStop_call _ _) (fun _ _ => ?_)
  refine failStop_bind (failStop_emit _ (by simp [is_failed_call])) (fun _ _ => ?_)
  refine failStop_bind (failStop_loop _ (fun e he =>
    preview1_not_failed e (print_pooler_output_preview _ _ e he))) (fun _ _ => ?_)
  refine failStop_bind (failStop_emit _ (by simp [is_failed_call])) (fun _ _ => ?_)
  refine failStop_bind (failStop_emit _ (by simp [is_failed_call])) (fun _ _ => ?_)
  refine failStop_bind (failStop_emit _ (by simp [is_failed_call])) (fun _ _ => ?_)
  refine failStop_bind (failStop_emit _ (by simp [is_failed_call])) (fun _ _ => ?_)
  exact failStop_pure _

theorem failStop_main (ort : OrtApi) (argc : Int) (argv : List String) :
    FailStop (main ort argc argv) := by
  simp only [main, bind_eq]
  refine failStop_bind (failStop_emit _ (by simp [is_failed_call])) (fun _ _ => ?_)
  split
  swap
  · exact failStop_bind (failStop_halt _ (by simp [is_failed_call]))
      (fun _ h => by simp [halt] at h)
  refine failStop_bind (failStop_pure _) (fun _ _ => ?_)
  refine failStop_bind (failStop_call _ _) (fun _ _ => ?_)
  refine failStop_bind (failStop_assert _ _) (fun _ _ => ?_)
  refine failStop_bind (failStop_call _ _) (fun _ _ => ?_)
  refine failStop_bind (failStop_call _ _) (fun _ _ => ?_)
  refine failStop_bind (failStop_verify _ _) (fun _ _ => ?_)
  refine failStop_bind (failStop_emit _ (by simp [is_failed_call])) (fun _ _ => ?_)
  refine failStop_bind (failStop_run_inference _ _ _ _) (fun _ _ => ?_)
  refine failStop_bind (failStop_emit _ (by simp [is_failed_call])) (fun _ _ => ?_)
  refine failStop_bind (failStop_emit _ (by simp [is_failed_call])) (fun _ _ => ?_)
  refine failStop_bind (failStop_emit _ (by simp [is_failed_call])) (fun _ _ => ?_)
  refine failStop_bind (failStop_emit _ (by simp [is_failed_call])) (fun _ _ => ?_)
  exact failStop_pure _

theorem split_unique {P : Event → Bool} :
    ∀ (pre0 pre : List Event) (x0 x : Event) (suf0 post : List Event),
      (∀ e ∈ pre0, P e = false) → (∀ e ∈ suf0, P e = false) → P x = true →
      pre0 ++ x0 :: suf0 = pre ++ x :: post → pre = pre0 ∧ x = x0 ∧ post = suf0
  | [], [], x0, x, suf0, post, _, _, _, h => by
    simp only [List.nil_append, List.cons.injEq] at h
    exact ⟨rfl, h.1.symm, h.2.symm⟩
  | [], y :: pre, x0, x, suf0, post, _, h2, h3, h => by
    simp only [List.nil_append, List.cons_append, List.cons.injEq] at h
    have := h2 x (by rw [h.2]; simp)
    rw [h3] at this
    cases this
  | y :: pre0, [], x0, x, suf0, post, h1, _, h3, h => by
    simp only [List.nil_append, List.cons_append, List.cons.injEq] at h
    have := h1 x (by rw [← h.1]; simp)
    rw [h3] at this
    cases this
  | y :: pre0, z :: pre, x0, x, suf0, post, h1, h2, h3, h => by
    simp only [List.cons_append, List.cons.injEq] at h
    obtain ⟨hp, hx, hs⟩ := split_unique pre0 pre x0 x suf0 post
      (fun e he => h1 e (by simp [he])) h2 h3 h.2
    exact ⟨by rw [hp, h.1], hx, hs⟩

/-! ## The beginning of a run -/

theorem prefix_call {α β : Type} {c : Call} {r : Except String α} {f : α → Proc β} {a : α}
    {l : List Event} (hr : r = .ok a) (h : l <+: (f a).trace) :
    (Event.call c none :: l) <+: (Proc.bind (ORT_ABORT_ON_ERROR c r) f).trace := by
  subst hr
  obtain ⟨t, ht⟩ := h
  exact ⟨t, by simp [Proc.bind, ORT_ABORT_ON_ERROR, ht]⟩

theorem prefix_assert {β : Type} {expr : String} {holds : Bool} {f : Unit → Proc β}
    {l : List Event} (hh : holds = true) (h : l <+: (f ()).trace) :
    l <+: (Proc.bind (assert expr holds) f).trace := by
  subst hh
  obtain ⟨t, ht⟩ := h
  exact ⟨t, by simp [Proc.bind, assert, ht]⟩

theorem prefix_emit {β : Type} {e : Event} {f : Unit → Proc β} {l : List Event}
    (h : l <+: (f ()).trace) : (e :: l) <+: (Proc.bind (emit [e]) f).trace := by
  obtain ⟨t, ht⟩ := h
  exact ⟨t, by simp [Proc.bind, emit, ht]⟩

theorem prefix_vla {β : Type} {fits : Bool} {size : Nat} {f : Unit → Proc β}
    {l : List Event} (hf : fits = true) (h : l <+: (f ()).trace) :
    l <+: (Proc.bind (declare_vla fits size) f).trace := by
  subst hf
  obtain ⟨t, ht⟩ := h
  exact ⟨t, by simp [Proc.bind, declare_vla, ht]⟩

theorem run_inference_starts {ort : OrtApi} {a : Answers} (h : RunAnswered ort a)
    (session : Handle) (tokens : List Cell) (num_tokens : Nat) :
    inference_events session tokens num_tokens a
      <+: (run_inference ort session tokens num_tokens).trace := by
  obtain ⟨h1, h2, n2, ⟨i3, h3, n3⟩, s1, h4, n4, ⟨i5, h5, n5⟩, s2, h6, n6, ⟨i7, h7, n7⟩,
    h8, n8, n9⟩ := h
  simp only [run_inference, bind_eq, inference_events]
  refine prefix_call h1 ?_
  refine prefix_call h2 ?_
  refine prefix_assert (by simpa using n2) ?_
  refine prefix_call h3 ?_
  refine prefix_assert (by simpa using n3) ?_
  refine prefix_vla s1 ?_
  refine prefix_call h4 ?_
  refine prefix_assert (by simpa using n4) ?_
  refine prefix_call h5 ?_
  refine prefix_assert (by simpa using n5) ?_
  refine prefix_vla s2 ?_
  refine prefix_call h6 ?_
  refine prefix_assert (by simpa using n6) ?_
  refine prefix_call h7 ?_
  refine prefix_assert (by simpa using n7) ?_
  refine prefix_emit ?_
  refine prefix_call h8 ?_
  exact List.nil_prefix

/-- C2: wherever in a run of `main` a call into the runtime returns a failure with message
`msg`, what follows it in the trace is exactly: the message is fetched, printed on standard
error, the status released, and the process aborts. The process does not return, and no
call into the runtime that returns a status (so none that creates or allocates a resource)
follows the failed one. -/
theorem failed_call_prints_and_aborts (ort : OrtApi) (argc : Int) (argv : List String)
    (pre post : List Event) (c : Call) (msg : String)
    (h : (main ort argc argv).trace = pre ++ Event.call c (some msg) :: post) :
    post = [.GetErrorMessage, .fprintf_stderr "%s\n" [.str msg], .ReleaseStatus, .abort]
    ∧ (main ort argc argv).val = none
    ∧ (∀ e ∈ post, ∀ c2 st, e ≠ Event.call c2 st) := by
  have hpost : post = abort_events msg ∧ (main ort argc argv).val = none := by
    rcases failStop_main ort argc argv with hno | ⟨hn, pre0, c0, msg0, hpre0, ht⟩
    · have := hno (Event.call c (some msg)) (by rw [h]; simp)
      simp [is_failed_call] at this
    · rw [ht] at h
      obtain ⟨_, hx, hs⟩ := split_unique pre0 pre (Event.call c0 (some msg0))
        (Event.call c (some msg)) (abort_events msg0) post hpre0
        (by simp [abort_events, is_failed_call]) rfl h
      simp only [Event.call.injEq, Option.some.injEq] at hx
      rw [hs, hx.2]
      exact ⟨rfl, hn⟩
  refine ⟨hpost.1, hpost.2, ?_⟩
  intro e he c2 st
  rw [hpost.1] at he
  simp only [abort_events, List.mem_cons, List.mem_singleton, List.not_mem_nil, or_false] at he
  rcases he with rfl | rfl | rfl | rfl <;> simp

/-- C2, on a run whose model file cannot be loaded: `CreateSession` is the third call, it
fails, and the run ends with the four events of the failure policy. -/
theorem failed_call_prints_and_aborts_witness :
    (main bad_model_ort 2 ["onnxdemo", "missing.onnx"]).trace
      = [.GetApi, .call (.CreateEnv .ORT_LOGGING_LEVEL_WARNING "test") none,
          .call .CreateSessionOptions none]
        ++ Event.call (.CreateSession 1 "missing.onnx" 2) (some "Load model missing.onnx failed")
          :: [.GetErrorMessage, .fprintf_stderr "%s\n" [.str "Load model missing.onnx failed"],
              .ReleaseStatus, .abort]
    ∧ ([.GetErrorMessage, .fprintf_stderr "%s\n" [.str "Load model missing.onnx failed"],
          .ReleaseStatus, .abort]
        = [Event.GetErrorMessage, .fprintf_stderr "%s\n" [.str "Load model missing.onnx failed"],
          .ReleaseStatus, .abort]
      ∧ (main bad_model_ort 2 ["onnxdemo", "missing.onnx"]).val = none
      ∧ (∀ e ∈ [Event.GetErrorMessage,
            .fprintf_stderr "%s\n" [.str "Load model missing.onnx failed"],
            .ReleaseStatus, .abort], ∀ c2 st, e ≠ Event.call c2 st)) :=
  ⟨rfl, failed_call_prints_and_aborts bad_model_ort 2 ["onnxdemo", "missing.onnx"]
    [.GetApi, .call (.CreateEnv .ORT_LOGGING_LEVEL_WARNING "test") none,
      .call .CreateSessionOptions none]
    [.GetErrorMessage, .fprintf_stderr "%s\n" [.str "Load model missing.onnx failed"],
      .ReleaseStatus, .abort]
    (.CreateSession 1 "missing.onnx" 2) "Load model missing.onnx failed" rfl⟩

/-- C3: when `main` is started without a model path (`argc < 2`) it writes exactly
"Must include model path" and a newline to standard error and exits with `EXIT_FAILURE`,
which is not zero. These two events are all it does after fetching the API table: it does
not return, and no environment, session options or session is created and no inference
is run. -/
theorem missing_model_path_exits (ort : OrtApi) (argc : Int) (argv : List String)
    (h : argc < 2) :
    main ort argc argv
      = ⟨[.GetApi, .fprintf_stderr "Must include model path\n" [], .exit EXIT_FAILURE], none⟩
    ∧ EXIT_FAILURE ≠ 0
    ∧ (∀ e ∈ (main ort argc argv).trace, ∀ c st, e ≠ Event.call c st) := by
  have hn : ¬ argc ≥ 2 := by omega
  have hm : main ort argc argv
      = ⟨[.GetApi, .fprintf_stderr "Must include model path\n" [], .exit EXIT_FAILURE], none⟩ := by
    simp [main, hn, Proc.bind, emit, halt]
  refine ⟨hm, by decide, ?_⟩
  intro e he c st
  rw [hm] at he
  simp only [List.mem_cons, List.mem_singleton, List.not_mem_nil, or_false] at he
  rcases he with rfl | rfl | rfl <;> simp

/-- C3, for the program started with its own name only. -/
theorem missing_model_path_exits_witness :
    (1 : Int) < 2
    ∧ (main demo_ort 1 ["onnxdemo"]
        = ⟨[.GetApi, .fprintf_stderr "Must include model path\n" [], .exit EXIT_FAILURE], none⟩
      ∧ EXIT_FAILURE ≠ 0
      ∧ (∀ e ∈ (main demo_ort 1 ["onnxdemo"]).trace, ∀ c st, e ≠ Event.call c st)) :=
  ⟨by decide, missing_model_path_exits demo_ort 1 ["onnxdemo"] (by decide)⟩

/-- C4: `verify_input_output_count` returns if and only if both count queries succeed, the
input count is 3 and the output count is 2; in every other case it does not return and the
last event of the verification step itself is the abort of the process. -/
theorem verify_returns_iff (ort : OrtApi) (session : Handle) :
    ((verify_input_output_count ort session).val = some ()
      ↔ (ort.SessionGetInputCount = .ok 3 ∧ ort.SessionGetOutputCount = .ok 2))
    ∧ (¬ (ort.SessionGetInputCount = .ok 3 ∧ ort.SessionGetOutputCount = .ok 2)
        → (verify_input_output_count ort session).val = none
          ∧ (verify_input_output_count ort session).trace.getLast? = some .abort) := by
  have hiff : (verify_input_output_count ort session).val = some ()
      ↔ (ort.SessionGetInputCount = .ok 3 ∧ ort.SessionGetOutputCount = .ok 2) := by
    constructor
    · intro h
      exact verify_returns h
    · rintro ⟨h1, h2⟩
      rw [verify_ok session h1 h2]
  refine ⟨hiff, ?_⟩
  intro hne
  have hv : (verify_input_output_count ort session).val = none := by
    cases hv : (verify_input_output_count ort session).val with
    | none => rfl
    | some u => exact absurd (hiff.mp hv) hne
  exact ⟨hv, verify_stops ort session hv⟩

/-- C4, on a session that reports four inputs: the verification aborts. -/
theorem verify_returns_iff_witness :
    ¬ (four_inputs_ort.SessionGetInputCount = .ok 3
        ∧ four_inputs_ort.SessionGetOutputCount = .ok 2)
    ∧ (verify_input_output_count four_inputs_ort 3).val = none
    ∧ (verify_input_output_count four_inputs_ort 3).trace.getLast? = some .abort :=
  ⟨by simp [four_inputs_ort], (verify_returns_iff four_inputs_ort 3).2
    (by simp [four_inputs_ort])⟩

theorem count_values_pooler_preview (po : Int → CFloat) (F : Nat) :
    (spec_pooler_preview po F).countP is_value_print = min F 10 := by
  have := countP_flatMap_const is_value_print
    (fun i : Nat => [Event.load "pooler_output" (i : Int),
      Event.printf "%0.4e, " [Arg.float (po i)]]) 1 (List.range (min F 10))
    (fun i _ => by simp [List.countP_cons, is_value_print])
  rw [spec_pooler_preview, List.countP_append, List.countP_append, this, List.length_range]
  simp [List.countP_cons, is_value_print]

theorem int_max_lt : INT_MAX < 2147483648 := by
  unfold INT_MAX
  omega

theorem wrapped_index : hidden_state_index 2147483648 3 0 INT_MIN 0 = -6442450944 := by
  unfold hidden_state_index INT_MIN
  omega

/-- C6: for a second output of shape `(B, F)` whose `F` does not exceed `INT_MAX`, the
preview loop of `run_inference` is left and prints exactly `min(F, 10)` values, hence at
most 10: the elements at offsets `0 .. min(F,10)-1` of the data buffer, in order. The
preview then ends with `...]`, in particular when `F` exceeds 10; and every run of
`run_inference` that returns prints the shape line and this preview. -/
theorem second_preview_at_most_ten_values (po : Int → CFloat) (B F : Nat)
    (hF : (F : Int) ≤ INT_MAX) :
    print_pooler_output po F = (spec_pooler_preview po F, true)
    ∧ (print_pooler_output po F).1.countP is_value_print = min F 10
    ∧ (print_pooler_output po F).1.countP is_value_print ≤ 10
    ∧ (print_pooler_output po F).1.getLast? = some (Event.printf "...]\n" [])
    ∧ (∀ (ort : OrtApi) (a : Answers) (session : Handle) (tokens : List Cell) (n : Nat),
        Answered ort a → Preview0Finishes a → a.dims = ((B : Int), (F : Int)) →
        (Event.printf "shape: (%li,%li)\n" [.int B, .int F]
            :: spec_pooler_preview a.pooler_output F)
          <:+: (run_inference ort session tokens n).trace) := by
  have heq := print_pooler_output_eq po F hF
  have hcount : (print_pooler_output po F).1.countP is_value_print = min F 10 := by
    rw [heq, count_values_pooler_preview]
  refine ⟨heq, hcount, ?_, ?_, ?_⟩
  · rw [hcount]
    exact Nat.min_le_right F 10
  · rw [heq]
    simp only [spec_pooler_preview]
    rw [List.getLast?_append]
    rfl
  · intro ort a session tokens n ha hp0 hdims
    have hp1 : Preview1Finishes a := by
      unfold Preview1Finishes
      rw [hdims, print_pooler_output_eq a.pooler_output F hF]
    rw [run_inference_of_answered ha hp0 hp1 session tokens n]
    refine ⟨inference_events session tokens n a ++ report0_events a
      ++ [.call (.GetTensorMutableData a.output1) none,
          .call (.GetTensorTypeAndShape a.output1) none,
          .call (.GetDimensionsCount a.shape_info1) none,
          .call (.GetDimensions a.shape_info1 2) none], inference_releases a, ?_⟩
    simp [report1_events, hdims, print_pooler_output_eq a.pooler_output F hF]

/-- C6, on the demo runtime, whose second output has shape `(1, 384)`: ten values, and the
run of `run_inference` contains the shape line followed by the preview. -/
theorem second_preview_at_most_ten_values_witness :
    ((384 : Nat) : Int) ≤ INT_MAX
    ∧ (print_pooler_output (fun i => i.toNat) 384).1.countP is_value_print = 10
    ∧ (Event.printf "shape: (%li,%li)\n" [.int 1, .int 384]
          :: spec_pooler_preview (fun i => i.toNat) 384)
        <:+: (run_inference demo_ort 3 main_tokens 7).trace :=
  ⟨by decide,
    (second_preview_at_most_ten_values (fun i => i.toNat) 1 384 (by decide)).2.1,
    (second_preview_at_most_ten_values (fun i => i.toNat) 1 384 (by decide)).2.2.2.2
      demo_ort demo_answers 3 main_tokens 7
      ⟨⟨rfl, rfl, by decide, ⟨1, rfl, by decide⟩, rfl, rfl, by decide, ⟨1, rfl, by decide⟩,
        rfl, rfl, by decide, ⟨1, rfl, by decide⟩, rfl, by decide, by decide⟩,
        ⟨rfl, rfl⟩, ⟨rfl, rfl⟩, ⟨rfl, rfl⟩, rfl, rfl⟩ rfl rfl⟩

/-- C6 fails without the bound: for a second output whose feature dimension is `2^31` the
`int` counter wraps around to `INT_MIN` after `2^31` iterations, where `i < 10` holds
again: the element at offset `-2147483648` is read, the loop is never left and the
ellipsis is not printed. -/
theorem second_preview_wraps_beyond_int_max :
    print_pooler_output (fun _ => 0) 2147483648
      ≠ (spec_pooler_preview (fun _ => 0) 2147483648, true)
    ∧ (print_pooler_output (fun _ => 0) 2147483648).2 = false
    ∧ Event.load "pooler_output" (-2147483648)
        ∈ (print_pooler_output (fun _ => 0) 2147483648).1
    ∧ Event.printf "...]\n" [] ∉ (print_pooler_output (fun _ => 0) 2147483648).1 := by
  have h := print_pooler_output_wraps (fun _ => 0) 2147483648 int_max_lt
  refine ⟨?_, h.1, h.2.1, h.2.2⟩
  intro heq
  have h2 := h.1
  rw [heq] at h2
  cases h2

theorem index_lt_of_three_le (B S F b t f : Nat) (hb : b < B) (ht : t < S) (hf : f < 3)
    (hF : 3 ≤ F) : b * S * F + t * F + f < B * S * F := by
  have h1 : (t + 1) * F ≤ S * F := Nat.mul_le_mul_right F ht
  have h2 : (b + 1) * (S * F) ≤ B * (S * F) := Nat.mul_le_mul_right (S * F) hb
  have e1 : (t + 1) * F = t * F + F := by ring
  have e2 : (b + 1) * (S * F) = b * S * F + S * F := by ring
  have e3 : B * (S * F) = B * S * F := by ring
  omega

theorem last_index_eq (b s F : Nat) :
    b * (s + 1) * F + s * F + 2 + F = (b + 1) * (s + 1) * F + 2 := by
  ring

/-- C10: for a first output of shape `(B, S, F)` with `1 ≤ B ≤ INT_MAX` and
`1 ≤ S ≤ INT_MAX`, the indices the preview loop reads from the data buffer are exactly the
`b*S*F + t*F + f` with `b < B`, `t < S`, `f < 3`; all of them lie within the `B*S*F`
elements of the tensor if and only if `F ≥ 3`. When `F < 3`, the read of feature 2 of every
position is at or beyond the end of that position's row, and for the last position it is at
or beyond the end of the buffer. -/
theorem first_preview_reads_in_bounds_iff (lhs : Int → CFloat) (B S F : Nat)
    (hB : 1 ≤ B) (hS : 1 ≤ S) (hBmax : (B : Int) ≤ INT_MAX) (hSmax : (S : Int) ≤ INT_MAX) :
    (∀ idx : Int,
      Event.load "last_hidden_state" idx ∈ (print_last_hidden_state lhs B S F).1 ↔
      ∃ b t f : Nat, b < B ∧ t < S ∧ f < 3 ∧ idx = (b : Int) * S * F + t * F + f)
    ∧ ((∀ idx : Int,
          Event.load "last_hidden_state" idx ∈ (print_last_hidden_state lhs B S F).1 →
          0 ≤ idx ∧ idx < ((B * S * F : Nat) : Int)) ↔ 3 ≤ F)
    ∧ (F < 3 →
        (∀ b t : Nat, b < B → t < S →
          Event.load "last_hidden_state" (hidden_state_index S F b t 2)
            ∈ (print_last_hidden_state lhs B S F).1
          ∧ (b : Int) * S * F + (t + 1) * F ≤ hidden_state_index S F b t 2)
        ∧ ((B * S * F : Nat) : Int) ≤ hidden_state_index S F ((B - 1 : Nat) : Int)
            ((S - 1 : Nat) : Int) 2) := by
  have hmem := mem_load_hidden_preview lhs B S F hBmax hSmax
  clear hBmax hSmax
  obtain ⟨b0, rfl⟩ : ∃ b0, B = b0 + 1 := ⟨B - 1, by omega⟩
  obtain ⟨s0, rfl⟩ : ∃ s0, S = s0 + 1 := ⟨S - 1, by omega⟩
  refine ⟨hmem, ⟨?_, ?_⟩, ?_⟩
  · intro h
    have hlast := (h ((b0 : Int) * ((s0 + 1 : Nat) : Int) * F + s0 * F + (2 : Nat))
      ((hmem _).mpr ⟨b0, s0, 2, by omega, by omega, by omega, rfl⟩)).2
    have hcast : ((b0 * (s0 + 1) * F + s0 * F + 2 : Nat) : Int)
        < (((b0 + 1) * (s0 + 1) * F : Nat) : Int) := by
      push_cast at hlast ⊢
      exact hlast
    have hnat : b0 * (s0 + 1) * F + s0 * F + 2 < (b0 + 1) * (s0 + 1) * F := by
      exact_mod_cast hcast
    have := last_index_eq b0 s0 F
    omega
  · intro hF idx hidx
    obtain ⟨b, t, f, hb, ht, hf, rfl⟩ := (hmem idx).mp hidx
    have hlt := index_lt_of_three_le (b0 + 1) (s0 + 1) F b t f hb ht hf hF
    constructor
    · positivity
    · have : ((b * (s0 + 1) * F + t * F + f : Nat) : Int)
          < (((b0 + 1) * (s0 + 1) * F : Nat) : Int) := by exact_mod_cast hlt
      push_cast at this ⊢
      exact this
  · intro hF
    constructor
    · intro b t hb ht
      constructor
      · refine (hmem _).mpr ⟨b, t, 2, hb, ht, by omega, ?_⟩
        simp [hidden_state_index]
      · simp only [hidden_state_index]
        have : ((t : Int) + 1) * F = t * F + F := by ring
        rw [this]
        have hF2 : (F : Int) ≤ 2 := by omega
        linarith
    · simp only [hidden_state_index, Nat.add_sub_cancel]
      have h := last_index_eq b0 s0 F
      have hc : ((b0 * (s0 + 1) * F + s0 * F + 2 + F : Nat) : Int)
          = (((b0 + 1) * (s0 + 1) * F + 2 : Nat) : Int) := by exact_mod_cast h
      push_cast at hc ⊢
      have hF2 : (F : Int) ≤ 2 := by omega
      linarith

/-- C10, for shapes `(1, 7, 384)` (all reads in bounds) and `(1, 7, 2)` (the read of
feature 2 of the last position is at offset 14, the size of the buffer). -/
theorem first_preview_reads_in_bounds_iff_witness :
    (1 ≤ 1 ∧ 1 ≤ 7 ∧ ((1 : Nat) : Int) ≤ INT_MAX ∧ ((7 : Nat) : Int) ≤ INT_MAX)
    ∧ ((∀ idx : Int,
          Event.load "last_hidden_state" idx
            ∈ (print_last_hidden_state (fun i => i.toNat) 1 7 384).1
            → 0 ≤ idx ∧ idx < ((1 * 7 * 384 : Nat) : Int)) ↔ 3 ≤ 384)
    ∧ Event.load "last_hidden_state" 14
        ∈ (print_last_hidden_state (fun i => i.toNat) 1 7 2).1 :=
  ⟨⟨by decide, by decide, by decide, by decide⟩,
    (first_preview_reads_in_bounds_iff (fun i => i.toNat) 1 7 384 (by decide) (by decide)
      (by decide) (by decide)).2.1,
    (((first_preview_reads_in_bounds_iff (fun i => i.toNat) 1 7 2 (by decide)
      (by decide) (by decide) (by decide)).2.2 (by decide)).1 0 6 (by decide) (by decide)).1⟩

/-- C10 fails without the bound: for a first output of shape `(1, 2^31, 3)` the feature
dimension is 3, yet the token counter wraps around to `INT_MIN` and the loop reads at
offset `-6442450944`, before the start of the buffer. -/
theorem first_preview_reads_below_buffer :
    ¬ ((∀ idx : Int,
          Event.load "last_hidden_state" idx
            ∈ (print_last_hidden_state (fun _ => 0) 1 2147483648 3).1 →
          0 ≤ idx ∧ idx < ((1 * 2147483648 * 3 : Nat) : Int)) ↔ 3 ≤ 3) := by
  intro hiff
  have h := (print_last_hidden_state_wraps (fun _ => 0) 1 2147483648 3 (by omega)
    int_max_lt).2
  rw [wrapped_index] at h
  have hb := (hiff.mpr (Nat.le_refl 3) (-6442450944) h).1
  omega

theorem preview0_bufferIs (out : String) (content : List Cell) (e : Event)
    (h : is_preview0 e = true) : BufferIs out content e := by
  cases e <;> simp_all [is_preview0, BufferIs]

theorem preview1_bufferIs (out : String) (content : List Cell) (e : Event)
    (h : is_preview1 e = true) : BufferIs out content e := by
  cases e <;> simp_all [is_preview1, BufferIs]

theorem quiet_bufferIs (out : String) (content : List Cell) : Quiet (BufferIs out content) := by
  refine ⟨?_, ?_, ?_, ?_, ?_⟩ <;> simp [BufferIs]

theorem allEv_bufferIs (ort : OrtApi) (session : Handle) (tokens : List Cell) (num_tokens : Nat)
    (out : String) (v : Int) (hmax : (num_tokens : Int) ≤ INT_MAX)
    (h1 : out ≠ "input_ids")
    (h2 : out = "attention_mask" → v = 1) (h3 : out = "token_type_ids" → v = 0) :
    AllEv (BufferIs out (List.replicate num_tokens (some v)))
      (run_inference ort session tokens num_tokens) := by
  have hq := quiet_bufferIs out (List.replicate num_tokens (some v))
  have hother : ∀ (c : Call), (∀ info d len shape sl o,
      c ≠ .CreateTensorWithDataAsOrtValue info d len shape sl o) →
      ∀ st, BufferIs out (List.replicate num_tokens (some v)) (.call c st) := by
    intro c hc st info d len shape sl st2 he
    simp only [Event.call.injEq] at he
    exact absurd he.1 (hc _ _ _ _ _ _)
  simp only [run_inference, bind_eq]
  refine allEv_call hq (hother _ (by simp)) (fun _ _ => ?_)
  refine allEv_call hq ?_ (fun _ _ => ?_)
  · intro st info d len shape sl st2 he
    simp only [Event.call.injEq, Call.CreateTensorWithDataAsOrtValue.injEq] at he
    exact absurd he.1.2.2.2.2.2.symm h1
  refine allEv_assert hq (fun _ => ?_)
  refine allEv_call hq (hother _ (by simp)) (fun _ _ => ?_)
  refine allEv_assert hq (fun _ => ?_)
  refine allEv_vla (by simp [BufferIs]) (fun _ => ?_)
  refine allEv_call hq ?_ (fun _ _ => ?_)
  · intro st info d len shape sl st2 he
    simp only [Event.call.injEq, Call.CreateTensorWithDataAsOrtValue.injEq] at he
    rw [← he.1.2.1, filled_array_eq _ _ hmax, h2 he.1.2.2.2.2.2.symm]
  refine allEv_assert hq (fun _ => ?_)
  refine allEv_call hq (hother _ (by simp)) (fun _ _ => ?_)
  refine allEv_assert hq (fun _ => ?_)
  refine allEv_vla (by simp [BufferIs]) (fun _ => ?_)
  refine allEv_call hq ?_ (fun _ _ => ?_)
  · intro st info d len shape sl st2 he
    simp only [Event.call.injEq, Call.CreateTensorWithDataAsOrtValue.injEq] at he
    rw [← he.1.2.1, filled_array_eq _ _ hmax, h3 he.1.2.2.2.2.2.symm]
  refine allEv_assert hq (fun _ => ?_)
  refine allEv_call hq (hother _ (by simp)) (fun _ _ => ?_)
  refine allEv_assert hq (fun _ => ?_)
  refine allEv_emit (by simp [BufferIs]) ?_
  refine allEv_call hq (hother _ (by simp)) (fun _ _ => ?_)
  refine allEv_assert hq (fun _ => ?_)
  refine allEv_assert hq (fun _ => ?_)
  refine allEv_assert hq (fun _ => ?_)
  refine allEv_call hq (hother _ (by simp)) (fun _ _ => ?_)
  refine allEv_call hq (hother _ (by simp)) (fun _ _ => ?_)
  refine allEv_call hq (hother _ (by simp)) (fun _ _ => ?_)
  refine allEv_assert hq (fun _ => ?_)
  refine allEv_call hq (hother _ (by simp)) (fun _ _ => ?_)
  refine allEv_emit (by simp [BufferIs]) ?_
  refine allEv_loop (fun e he => preview0_bufferIs _ _ e
    (print_last_hidden_state_preview _ _ _ _ e he)) (fun _ => ?_)
  refine allEv_call hq (hother _ (by simp)) (fun _ _ => ?_)
  refine allEv_call hq (hother _ (by simp)) (fun _ _ => ?_)
  refine allEv_call hq (hother _ (by simp)) (fun _ _ => ?_)
  refine allEv_assert hq (fun _ => ?_)
  refine allEv_call hq (hother _ (by simp)) (fun _ _ => ?_)
  refine allEv_emit (by simp [BufferIs]) ?_
  refine allEv_loop (fun e he => preview1_bufferIs _ _ e
    (print_pooler_output_preview _ _ e he)) (fun _ => ?_)
  refine allEv_emit (by simp [BufferIs]) ?_
  refine allEv_emit (by simp [BufferIs]) ?_
  refine allEv_emit (by simp [BufferIs]) ?_
  refine allEv_emit (by simp [BufferIs]) ?_
  exact allEv_pure _

theorem buffers_handed (ort : OrtApi) (a : Answers) (h : RunAnswered ort a)
    (session : Handle) (tokens : List Cell) (num_tokens : Nat) :
    Event.call (.CreateTensorWithDataAsOrtValue a.memory_info (filled_array num_tokens 1)
        (num_tokens * sizeof_int64_t) [1, (num_tokens : Int)] 2 "attention_mask") none
      ∈ (run_inference ort session tokens num_tokens).trace
    ∧ Event.call (.CreateTensorWithDataAsOrtValue a.memory_info (filled_array num_tokens 0)
        (num_tokens * sizeof_int64_t) [1, (num_tokens : Int)] 2 "token_type_ids") none
      ∈ (run_inference ort session tokens num_tokens).trace
    ∧ Event.call (.Run session ["input_ids", "attention_mask", "token_type_ids"]
        [a.input_ids, a.attention_mask, a.token_type_ids] 3
        ["last_hidden_state", "pooler_output"] 2) none
      ∈ (run_inference ort session tokens num_tokens).trace := by
  have hp := run_inference_starts h session tokens num_tokens
  have hsub := hp.subset
  refine ⟨hsub ?_, hsub ?_, hsub ?_⟩ <;> simp [inference_events]

/-- C1: for every token sequence of length `N` with `1 ≤ N ≤ INT_MAX` passed to
`run_inference`, on every run, whatever the runtime answers: the buffer given to the runtime
when the tensor `attention_mask` is created is the length-`N` sequence of 1s, and the buffer
given when `token_type_ids` is created is the length-`N` sequence of 0s. Neither depends on
the token values. Whenever the stack has room for the two arrays and the runtime accepts
the calls up to the inference call, both tensors have been created from these buffers, with
shape `(1, N)`, and are the second and third inputs of the inference call. -/
theorem mask_all_ones_types_all_zeros (ort : OrtApi) (session : Handle) (toks : List Int)
    (hN : 1 ≤ toks.length) (hmax : (toks.length : Int) ≤ INT_MAX) :
    (∀ info p_data p_data_len shape shape_len st,
      Event.call (.CreateTensorWithDataAsOrtValue info p_data p_data_len shape shape_len
          "attention_mask") st
        ∈ (run_inference ort session (toks.map some) toks.length).trace →
      p_data = List.replicate toks.length (some 1))
    ∧ (∀ info p_data p_data_len shape shape_len st,
      Event.call (.CreateTensorWithDataAsOrtValue info p_data p_data_len shape shape_len
          "token_type_ids") st
        ∈ (run_inference ort session (toks.map some) toks.length).trace →
      p_data = List.replicate toks.length (some 0))
    ∧ (∀ a : Answers, RunAnswered ort a →
      Event.call (.CreateTensorWithDataAsOrtValue a.memory_info
          (List.replicate toks.length (some 1)) (toks.length * sizeof_int64_t)
          [1, (toks.length : Int)] 2 "attention_mask") none
        ∈ (run_inference ort session (toks.map some) toks.length).trace
      ∧ Event.call (.CreateTensorWithDataAsOrtValue a.memory_info
          (List.replicate toks.length (some 0)) (toks.length * sizeof_int64_t)
          [1, (toks.length : Int)] 2 "token_type_ids") none
        ∈ (run_inference ort session (toks.map some) toks.length).trace
      ∧ Event.call (.Run session ["input_ids", "attention_mask", "token_type_ids"]
          [a.input_ids, a.attention_mask, a.token_type_ids] 3
          ["last_hidden_state", "pooler_output"] 2) none
        ∈ (run_inference ort session (toks.map some) toks.length).trace) := by
  have _ := hN
  refine ⟨?_, ?_, ?_⟩
  · intro info d len shape sl st he
    exact allEv_bufferIs ort session (toks.map some) toks.length "attention_mask" 1 hmax
      (by decide) (fun _ => rfl) (fun h => absurd h (by decide)) _ he info d len shape sl st rfl
  · intro info d len shape sl st he
    exact allEv_bufferIs ort session (toks.map some) toks.length "token_type_ids" 0 hmax
      (by decide) (fun h => absurd h (by decide)) (fun _ => rfl) _ he info d len shape sl st rfl
  · intro a ha
    have hb := buffers_handed ort a ha session (toks.map some) toks.length
    rw [filled_array_eq _ 1 hmax, filled_array_eq _ 0 hmax] at hb
    exact hb

/-- C1, for the seven tokens of `main` and the demo runtime. -/
theorem mask_all_ones_types_all_zeros_witness :
    1 ≤ [101, 2023, 2003, 2019, 2742, 6251, (102 : Int)].length
    ∧ (([101, 2023, 2003, 2019, 2742, 6251, (102 : Int)].length : Nat) : Int) ≤ INT_MAX
    ∧ Event.call (.CreateTensorWithDataAsOrtValue 4
          [some 1, some 1, some 1, some 1, some 1, some 1, some 1] 56 [1, 7] 2
          "attention_mask") none
        ∈ (run_inference demo_ort 3
            ([101, 2023, 2003, 2019, 2742, 6251, (102 : Int)].map some) 7).trace :=
  ⟨by decide, by decide,
    ((mask_all_ones_types_all_zeros demo_ort 3 [101, 2023, 2003, 2019, 2742, 6251, 102]
      (by decide) (by decide)).2.2 demo_answers
      ⟨rfl, rfl, by decide, ⟨1, rfl, by decide⟩, rfl, rfl, by decide, ⟨1, rfl, by decide⟩,
        rfl, rfl, by decide, ⟨1, rfl, by decide⟩, rfl, by decide, by decide⟩).1⟩

/-- C1 fails without the bound: for `N = 2^31 + 1` tokens, a stack with room for the arrays
and a runtime that accepts every call, the `int` counter of the fill loop wraps around
after `2^31` iterations and the loop is left: the buffer handed over for `attention_mask`
holds `2^31` ones and one cell that was never written, so it is not the sequence of `N`
ones. -/
theorem mask_not_all_ones_beyond_int_max :
    (List.replicate 2147483649 (0 : Int)).length = 2147483649
    ∧ ¬ (∀ info p_data p_data_len shape shape_len st,
          Event.call (.CreateTensorWithDataAsOrtValue info p_data p_data_len shape shape_len
              "attention_mask") st
            ∈ (run_inference demo_ort 3 ((List.replicate 2147483649 (0 : Int)).map some)
                2147483649).trace →
          p_data = List.replicate 2147483649 (some 1))
    ∧ Event.call (.CreateTensorWithDataAsOrtValue demo_answers.memory_info
          (filled_array 2147483649 1) (2147483649 * sizeof_int64_t)
          [1, ((2147483649 : Nat) : Int)] 2 "attention_mask") none
        ∈ (run_inference demo_ort 3 ((List.replicate 2147483649 (0 : Int)).map some)
            2147483649).trace
    ∧ filled_array 2147483649 1
        = List.replicate 2147483648 (some 1)
            ++ List.replicate (2147483649 - 2147483648) none := by
  have hmem := (buffers_handed demo_ort demo_answers
      ⟨rfl, rfl, by decide, ⟨1, rfl, by decide⟩, rfl, rfl, by decide, ⟨1, rfl, by decide⟩,
        rfl, rfl, by decide, ⟨1, rfl, by decide⟩, rfl, by decide, by decide⟩
      3 ((List.replicate 2147483649 (0 : Int)).map some) 2147483649).1
  have hne := filled_array_ne_replicate 2147483649 1 (by omega) (by omega)
  refine ⟨by rw [List.length_replicate], ?_, hmem,
    filled_array_wraps 2147483649 1 (by omega) (by omega)⟩
  intro h
  exact hne (h _ _ _ _ _ _ hmem)

theorem allEv_of_forall {α : Type} {Q : Event → Prop} (m : Proc α) (h : ∀ e, Q e) :
    AllEv Q m :=
  fun e _ => h e

theorem preview0_not_report1 (e : Event) (h : is_preview0 e = true) : is_report1 e = false := by
  cases e with
  | printf format args =>
    simp only [is_preview0, Bool.or_eq_true, beq_iff_eq] at h
    rcases h with (((((h | h) | h) | h) | h) | h) | h <;> subst h <;> rfl
  | load buffer index =>
    simp only [is_preview0, beq_iff_eq] at h
    subst h
    rfl
  | _ => simp [is_preview0] at h

theorem report0_guarded (ort : OrtApi) (session : Handle) (tokens : List Cell)
    (num_tokens : Nat) :
    AllEv (fun e => is_dims_or_output e = true → ort.GetDimensionsCount_0 = .ok 3)
      (run_inference ort session tokens num_tokens) := by
  have hq : Quiet (fun e => is_dims_or_output e = true → ort.GetDimensionsCount_0 = .ok 3) := by
    refine ⟨?_, ?_, ?_, ?_, ?_⟩ <;> simp [is_dims_or_output]
  simp only [run_inference, bind_eq]
  refine allEv_call hq (by simp [is_dims_or_output]) (fun _ _ => ?_)
  refine allEv_call hq (by simp [is_dims_or_output]) (fun _ _ => ?_)
  refine allEv_assert hq (fun _ => ?_)
  refine allEv_call hq (by simp [is_dims_or_output]) (fun _ _ => ?_)
  refine allEv_assert hq (fun _ => ?_)
  refine allEv_vla (by simp [is_dims_or_output]) (fun _ => ?_)
  refine allEv_call hq (by simp [is_dims_or_output]) (fun _ _ => ?_)
  refine allEv_assert hq (fun _ => ?_)
  refine allEv_call hq (by simp [is_dims_or_output]) (fun _ _ => ?_)
  refine allEv_assert hq (fun _ => ?_)
  refine allEv_vla (by simp [is_dims_or_output]) (fun _ => ?_)
  refine allEv_call hq (by simp [is_dims_or_output]) (fun _ _ => ?_)
  refine allEv_assert hq (fun _ => ?_)
  refine allEv_call hq (by simp [is_dims_or_output]) (fun _ _ => ?_)
  refine allEv_assert hq (fun _ => ?_)
  refine allEv_emit (by simp [is_dims_or_output]) ?_
  refine allEv_call hq (by simp [is_dims_or_output]) (fun _ _ => ?_)
  refine allEv_assert hq (fun _ => ?_)
  refine allEv_assert hq (fun _ => ?_)
  refine allEv_assert hq (fun _ => ?_)
  refine allEv_call hq (by simp [is_dims_or_output]) (fun _ _ => ?_)
  refine allEv_call hq (by simp [is_dims_or_output]) (fun _ _ => ?_)
  refine allEv_call hq (by simp [is_dims_or_output]) (fun dim_count hrank => ?_)
  refine allEv_assert hq (fun hassert => ?_)
  simp only [beq_iff_eq] at hassert
  subst hassert
  exact allEv_of_forall _ (fun _ _ => hrank)

theorem report1_guarded (ort : OrtApi) (session : Handle) (tokens : List Cell)
    (num_tokens : Nat) :
    AllEv (fun e => is_report1 e = true → ort.GetDimensionsCount_1 = .ok 2)
      (run_inference ort session tokens num_tokens) := by
  have hq : Quiet (fun e => is_report1 e = true → ort.GetDimensionsCount_1 = .ok 2) := by
    refine ⟨?_, ?_, ?_, ?_, ?_⟩ <;> simp [is_report1]
  simp only [run_inference, bind_eq]
  refine allEv_call hq (by simp [is_report1]) (fun _ _ => ?_)
  refine allEv_call hq (by simp [is_report1]) (fun _ _ => ?_)
  refine allEv_assert hq (fun _ => ?_)
  refine allEv_call hq (by simp [is_report1]) (fun _ _ => ?_)
  refine allEv_assert hq (fun _ => ?_)
  refine allEv_vla (by simp [is_report1]) (fun _ => ?_)
  refine allEv_call hq (by simp [is_report1]) (fun _ _ => ?_)
  refine allEv_assert hq (fun _ => ?_)
  refine allEv_call hq (by simp [is_report1]) (fun _ _ => ?_)
  refine allEv_assert hq (fun _ => ?_)
  refine allEv_vla (by simp [is_report1]) (fun _ => ?_)
  refine allEv_call hq (by simp [is_report1]) (fun _ _ => ?_)
  refine allEv_assert hq (fun _ => ?_)
  refine allEv_call hq (by simp [is_report1]) (fun _ _ => ?_)
  refine allEv_assert hq (fun _ => ?_)
  refine allEv_emit (by simp [is_report1]) ?_
  refine allEv_call hq (by simp [is_report1]) (fun _ _ => ?_)
  refine allEv_assert hq (fun _ => ?_)
  refine allEv_assert hq (fun _ => ?_)
  refine allEv_assert hq (fun _ => ?_)
  refine allEv_call hq (by simp [is_report1]) (fun _ _ => ?_)
  refine allEv_call hq (by simp [is_report1]) (fun _ _ => ?_)
  refine allEv_call hq (by simp [is_report1]) (fun _ _ => ?_)
  refine allEv_assert hq (fun _ => ?_)
  refine allEv_call hq (by simp [is_report1]) (fun _ _ => ?_)
  refine allEv_emit (by simp [is_report1]) ?_
  refine allEv_loop (fun e he h => by
    have := preview0_not_report1 e (print_last_hidden_state_preview _ _ _ _ e he)
    rw [this] at h
    cases h) (fun _ => ?_)
  refine allEv_call hq (by simp [is_report1]) (fun _ _ => ?_)
  refine allEv_call hq (by simp [is_report1]) (fun _ _ => ?_)
  refine allEv_call hq (by simp [is_report1]) (fun dim_count hrank => ?_)
  refine allEv_assert hq (fun hassert => ?_)
  simp only [beq_iff_eq] at hassert
  subst hassert
  exact allEv_of_forall _ (fun _ _ => hrank)

theorem demo_run_answered : RunAnswered demo_ort demo_answers :=
  ⟨rfl, rfl, by decide, ⟨1, rfl, by decide⟩, rfl, rfl, by decide, ⟨1, rfl, by decide⟩,
    rfl, rfl, by decide, ⟨1, rfl, by decide⟩, rfl, by decide, by decide⟩

theorem demo_answered : Answered demo_ort demo_answers :=
  ⟨demo_run_answered, ⟨rfl, rfl⟩, ⟨rfl, rfl⟩, ⟨rfl, rfl⟩, rfl, rfl⟩

theorem demo_startup_answered : StartupAnswered demo_ort 1 2 3 :=
  ⟨rfl, by decide, rfl, rfl, rfl, rfl⟩

theorem demo_preview0_finishes : Preview0Finishes demo_answers := by
  have h := print_last_hidden_state_eq (fun i => i.toNat) 1 7 384 (by decide) (by decide)
  simp only [Nat.cast_one, Nat.cast_ofNat] at h
  unfold Preview0Finishes
  show (print_last_hidden_state (fun i => i.toNat) 1 7 384).2 = true
  rw [h]

theorem demo_preview1_finishes : Preview1Finishes demo_answers := by
  have h := print_pooler_output_eq (fun i => i.toNat) 384 (by decide)
  simp only [Nat.cast_ofNat] at h
  unfold Preview1Finishes
  show (print_pooler_output (fun i => i.toNat) 384).2 = true
  rw [h]

/-- C9: in every run of `run_inference`, no dimensions are read, nothing is printed and no
output buffer is read unless the runtime reported rank 3 for the first output, so the
dimensions, shape line and data preview of the first output occur only then; the
dimensions of the second output are read into the 2-slot array, and its shape line and data
preview are printed, only if the runtime reported rank 2 for it.
When the run reaches a rank query and the runtime reports any other rank, the run is
exactly: the rank query, the failed assertion, the abort; the process does not return and
`GetDimensions` is not called for that output. The run reaches the rank query of the second
output when the preview loops of the first are left; when they are not left the run stays
in the first preview and nothing of the second output is queried. -/
theorem reports_only_after_rank_assertion (ort : OrtApi) (session : Handle)
    (tokens : List Cell) (num_tokens : Nat) :
    (∀ e ∈ (run_inference ort session tokens num_tokens).trace,
      is_dims_or_output e = true → ort.GetDimensionsCount_0 = .ok 3)
    ∧ (∀ e ∈ (run_inference ort session tokens num_tokens).trace,
      is_report1 e = true → ort.GetDimensionsCount_1 = .ok 2)
    ∧ (∀ (a : Answers) (k : Nat), RunAnswered ort a → Shape0Answered ort a →
      ort.GetDimensionsCount_0 = .ok k → k ≠ 3 →
      run_inference ort session tokens num_tokens
        = ⟨inference_events session tokens num_tokens a
            ++ [.call (.GetTensorMutableData a.output0) none,
                .call (.GetTensorTypeAndShape a.output0) none,
                .call (.GetDimensionsCount a.shape_info0) none,
                .assert_failed "dim_count == 3", .abort], none⟩)
    ∧ (∀ (a : Answers) (k : Nat), RunAnswered ort a → Shape0Answered ort a →
      Dims0Answered ort a → Preview0Finishes a → Shape1Answered ort a →
      ort.GetDimensionsCount_1 = .ok k → k ≠ 2 →
      run_inference ort session tokens num_tokens
        = ⟨inference_events session tokens num_tokens a ++ report0_events a
            ++ [.call (.GetTensorMutableData a.output1) none,
                .call (.GetTensorTypeAndShape a.output1) none,
                .call (.GetDimensionsCount a.shape_info1) none,
                .assert_failed "dim_count == 2", .abort], none⟩)
    ∧ (∀ (a : Answers), RunAnswered ort a → Shape0Answered ort a →
      Dims0Answered ort a → ¬ Preview0Finishes a →
      run_inference ort session tokens num_tokens
        = ⟨inference_events session tokens num_tokens a ++ report0_events a, none⟩) := by
  refine ⟨report0_guarded ort session tokens num_tokens,
    report1_guarded ort session tokens num_tokens, ?_, ?_, ?_⟩
  · intro a k h hs hk hne
    obtain ⟨h1, h2, n2, ⟨i3, h3, n3⟩, s1, h4, n4, ⟨i5, h5, n5⟩, s2, h6, n6, ⟨i7, h7, n7⟩,
      h8, n8, n9⟩ := h
    obtain ⟨h10, h11⟩ := hs
    simp [run_inference, h1, h2, h3, h4, h5, h6, h7, h8, h10, h11, hk, hne,
      n2, n3, n4, n5, n6, n7, n8, n9, s1, s2, ORT_ABORT_ON_ERROR, assert, emit, declare_vla,
      Proc.bind, inference_events]
  · intro a k h hs hd hp0 hs1 hk hne
    obtain ⟨h1, h2, n2, ⟨i3, h3, n3⟩, s1, h4, n4, ⟨i5, h5, n5⟩, s2, h6, n6, ⟨i7, h7, n7⟩,
      h8, n8, n9⟩ := h
    obtain ⟨h10, h11⟩ := hs
    obtain ⟨h12, h13⟩ := hd
    obtain ⟨h14, h15⟩ := hs1
    unfold Preview0Finishes at hp0
    simp [run_inference, h1, h2, h3, h4, h5, h6, h7, h8, h10, h11, h12, h13, h14, h15, hk, hne,
      n2, n3, n4, n5, n6, n7, n8, n9, s1, s2, hp0, ORT_ABORT_ON_ERROR, assert, emit,
      declare_vla, run_loop, Proc.bind, inference_events, report0_events]
  · intro a h hs hd hp0
    obtain ⟨h1, h2, n2, ⟨i3, h3, n3⟩, s1, h4, n4, ⟨i5, h5, n5⟩, s2, h6, n6, ⟨i7, h7, n7⟩,
      h8, n8, n9⟩ := h
    obtain ⟨h10, h11⟩ := hs
    obtain ⟨h12, h13⟩ := hd
    unfold Preview0Finishes at hp0
    simp only [Bool.not_eq_true] at hp0
    simp [run_inference, h1, h2, h3, h4, h5, h6, h7, h8, h10, h11, h12, h13,
      n2, n3, n4, n5, n6, n7, n8, n9, s1, s2, hp0, ORT_ABORT_ON_ERROR, assert, emit,
      declare_vla, run_loop, Proc.bind, inference_events, report0_events]

/-- C9, on a runtime that reports rank 2 for the first output, and on one that reports
rank 3 for the second: each run ends with the rank query, the failed assertion and the
abort. -/
theorem reports_only_after_rank_assertion_witness :
    run_inference rank2_ort 3 main_tokens 7
      = ⟨inference_events 3 main_tokens 7 demo_answers
          ++ [.call (.GetTensorMutableData 8) none,
              .call (.GetTensorTypeAndShape 8) none,
              .call (.GetDimensionsCount 10) none,
              .assert_failed "dim_count == 3", .abort], none⟩
    ∧ run_inference rank3_second_ort 3 main_tokens 7
      = ⟨inference_events 3 main_tokens 7 demo_answers ++ report0_events demo_answers
          ++ [.call (.GetTensorMutableData 9) none,
              .call (.GetTensorTypeAndShape 9) none,
              .call (.GetDimensionsCount 11) none,
              .assert_failed "dim_count == 2", .abort], none⟩ :=
  ⟨(reports_only_after_rank_assertion rank2_ort 3 main_tokens 7).2.2.1 demo_answers 2
    ⟨rfl, rfl, by decide, ⟨1, rfl, by decide⟩, rfl, rfl, by decide, ⟨1, rfl, by decide⟩,
      rfl, rfl, by decide, ⟨1, rfl, by decide⟩, rfl, by decide, by decide⟩
    ⟨rfl, rfl⟩ rfl (by decide),
   (reports_only_after_rank_assertion rank3_second_ort 3 main_tokens 7).2.2.2.1 demo_answers 3
    ⟨rfl, rfl, by decide, ⟨1, rfl, by decide⟩, rfl, rfl, by decide, ⟨1, rfl, by decide⟩,
      rfl, rfl, by decide, ⟨1, rfl, by decide⟩, rfl, by decide, by decide⟩
    ⟨rfl, rfl⟩ ⟨rfl, rfl⟩ demo_preview0_finishes ⟨rfl, rfl⟩ rfl (by decide)⟩

theorem preview0_not_release (e : Event) (h : is_preview0 e = true) :
    is_release e = false ∧ is_teardown e = false := by
  cases e <;> simp_all [is_preview0, is_release, is_teardown]

theorem preview1_not_release (e : Event) (h : is_preview1 e = true) :
    is_release e = false ∧ is_teardown e = false := by
  cases e <;> simp_all [is_preview1, is_release, is_teardown]

theorem filter_release_preview0 (lhs : Int → CFloat) (d0 d1 d2 : Int) :
    (print_last_hidden_state lhs d0 d1 d2).1.filter is_release = [] := by
  rw [List.filter_eq_nil_iff]
  intro e he
  simp [(preview0_not_release e (print_last_hidden_state_preview lhs d0 d1 d2 e he)).1]

theorem filter_release_preview1 (po : Int → CFloat) (d1 : Int) :
    (print_pooler_output po d1).1.filter is_release = [] := by
  rw [List.filter_eq_nil_iff]
  intro e he
  simp [(preview1_not_release e (print_pooler_output_preview po d1 e he)).1]

theorem release_mem_trace {t : List Event} {e : Event} (he : e ∈ t) (hr : is_release e = true) :
    e ∈ t.filter is_release :=
  List.mem_filter.mpr ⟨he, hr⟩

/-- The run of `main` on the demo runtime returns 0. -/
theorem demo_main_returns :
    (main demo_ort 2 ["onnxdemo", "model.onnx"]).val = some 0 := by
  rw [main_of_answered demo_startup_answered demo_answered demo_preview0_finishes
    demo_preview1_finishes 2 ["onnxdemo", "model.onnx"] (by decide)]

/-- C7: on every run of `main` that returns, the runtime has handed out eleven handles
(environment, session options, session, memory info, three input tensors, two output
tensors, two shape descriptors), and the releases of the whole run are exactly eight: the
memory info, the three input tensors, the second shape descriptor, the session options, the
session and the environment. Hence no `ReleaseValue` is issued for an output tensor
`a.output0`, `a.output1` (unless the runtime gave it the handle of an input tensor), and no
release is issued for the first shape descriptor `a.shape_info0` (unless it is also the
second): the create-then-release pairing fails for these three handles. -/
theorem releases_of_a_returning_run (ort : OrtApi) (argc : Int) (argv : List String) (r : Int)
    (h : (main ort argc argv).val = some r) :
    ∃ (env session_options session : Handle) (a : Answers),
      StartupAnswered ort env session_options session ∧ Answered ort a
      ∧ (main ort argc argv).trace.filter is_release
          = [.ReleaseMemoryInfo a.memory_info, .ReleaseValue a.input_ids,
             .ReleaseValue a.attention_mask, .ReleaseValue a.token_type_ids,
             .ReleaseTensorTypeAndShapeInfo a.shape_info1,
             .ReleaseSessionOptions session_options, .ReleaseSession session,
             .ReleaseEnv env]
      ∧ (∀ out : Handle, Event.ReleaseValue out ∈ (main ort argc argv).trace →
          out = a.input_ids ∨ out = a.attention_mask ∨ out = a.token_type_ids)
      ∧ (∀ info : Handle,
          Event.ReleaseTensorTypeAndShapeInfo info ∈ (main ort argc argv).trace →
          info = a.shape_info1) := by
  obtain ⟨hargc, env, so, sess, a, hs, ha, hp0, hp1⟩ := main_returns h
  have hfilter : (main ort argc argv).trace.filter is_release
      = [.ReleaseMemoryInfo a.memory_info, .ReleaseValue a.input_ids,
         .ReleaseValue a.attention_mask, .ReleaseValue a.token_type_ids,
         .ReleaseTensorTypeAndShapeInfo a.shape_info1,
         .ReleaseSessionOptions so, .ReleaseSession sess, .ReleaseEnv env] := by
    rw [main_of_answered hs ha hp0 hp1 argc argv hargc]
    simp [List.filter_append, startup_events, inference_events, report0_events, report1_events,
      inference_releases, main_releases, filter_release_preview0, filter_release_preview1,
      is_release, List.filter_cons]
  refine ⟨env, so, sess, a, hs, ha, hfilter, ?_, ?_⟩
  · intro out hout
    have hm := release_mem_trace hout rfl
    rw [hfilter] at hm
    simpa using hm
  · intro info hinfo
    have hm := release_mem_trace hinfo rfl
    rw [hfilter] at hm
    simpa using hm

/-- C7, on the run of the demo runtime, which returns: its output tensors are the handles 8
and 9 and its first shape descriptor is the handle 10, and none of the three is released. -/
theorem releases_of_a_returning_run_witness :
    (main demo_ort 2 ["onnxdemo", "model.onnx"]).val = some 0
    ∧ demo_ort.Run = .ok (8, 9) ∧ demo_ort.GetTensorTypeAndShape_0 = .ok 10
    ∧ Event.ReleaseValue 8 ∉ (main demo_ort 2 ["onnxdemo", "model.onnx"]).trace
    ∧ Event.ReleaseValue 9 ∉ (main demo_ort 2 ["onnxdemo", "model.onnx"]).trace
    ∧ Event.ReleaseTensorTypeAndShapeInfo 10
        ∉ (main demo_ort 2 ["onnxdemo", "model.onnx"]).trace := by
  obtain ⟨env, so, sess, a, _, ha, _, hv, hi⟩ :=
    releases_of_a_returning_run demo_ort 2 ["onnxdemo", "model.onnx"] 0 demo_main_returns
  obtain ⟨⟨_, h2, _, _, _, h4, _, _, _, h6, _, _, _, _, _⟩, _, _, ⟨_, h15⟩, _, _⟩ := ha
  have e2 : a.input_ids = 5 := by
    have : (Except.ok 5 : Except String Handle) = .ok a.input_ids := h2
    simpa using this.symm
  have e4 : a.attention_mask = 6 := by
    have : (Except.ok 6 : Except String Handle) = .ok a.attention_mask := h4
    simpa using this.symm
  have e6 : a.token_type_ids = 7 := by
    have : (Except.ok 7 : Except String Handle) = .ok a.token_type_ids := h6
    simpa using this.symm
  have e15 : a.shape_info1 = 11 := by
    have : (Except.ok 11 : Except String Handle) = .ok a.shape_info1 := h15
    simpa using this.symm
  refine ⟨demo_main_returns, rfl, rfl, ?_, ?_, ?_⟩
  · intro hm
    have := hv 8 hm
    rw [e2, e4, e6] at this
    revert this
    decide
  · intro hm
    have := hv 9 hm
    rw [e2, e4, e6] at this
    revert this
    decide
  · intro hm
    have := hi 10 hm
    rw [e15] at this
    revert this
    decide

/-- C8: on every run of `main` that returns, the trace ends with exactly these eight
events, in this order: the releases of the three input tensors, of the shape descriptor,
of the session options, of the session, of the environment, and the freeing of the token
buffer. None of these kinds of event occurs earlier in the run, and the creation of the
tensor that wraps the token buffer and the inference call both occur before them. -/
theorem teardown_release_order (ort : OrtApi) (argc : Int) (argv : List String) (r : Int)
    (h : (main ort argc argv).val = some r) :
    ∃ (env session_options session : Handle) (a : Answers) (pre : List Event),
      StartupAnswered ort env session_options session ∧ Answered ort a
      ∧ (main ort argc argv).trace
          = pre ++ [.ReleaseValue a.input_ids, .ReleaseValue a.attention_mask,
              .ReleaseValue a.token_type_ids, .ReleaseTensorTypeAndShapeInfo a.shape_info1,
              .ReleaseSessionOptions session_options, .ReleaseSession session,
              .ReleaseEnv env, .free "tokens"]
      ∧ (∀ e ∈ pre, is_teardown e = false)
      ∧ Event.call (.CreateTensorWithDataAsOrtValue a.memory_info main_tokens
          (7 * sizeof_int64_t) [1, 7] 2 "input_ids") none ∈ pre
      ∧ Event.call (.Run session ["input_ids", "attention_mask", "token_type_ids"]
          [a.input_ids, a.attention_mask, a.token_type_ids] 3
          ["last_hidden_state", "pooler_output"] 2) none ∈ pre := by
  obtain ⟨hargc, env, so, sess, a, hs, ha, hp0, hp1⟩ := main_returns h
  refine ⟨env, so, sess, a,
    startup_events env so sess (argv.getD 1 "") ++ inference_events sess main_tokens 7 a
      ++ report0_events a ++ report1_events a, hs, ha, ?_, ?_, ?_, ?_⟩
  · rw [main_of_answered hs ha hp0 hp1 argc argv hargc]
    simp [inference_releases, main_releases]
  · intro e he
    simp only [List.mem_append] at he
    rcases he with ((he | he) | he) | he
    · simp only [startup_events, List.mem_cons, List.mem_singleton, List.not_mem_nil,
        or_false] at he
      rcases he with rfl | rfl | rfl | rfl | rfl | rfl | rfl <;> rfl
    · simp only [inference_events, List.mem_cons, List.mem_singleton, List.not_mem_nil,
        or_false] at he
      rcases he with rfl | rfl | rfl | rfl | rfl | rfl | rfl | rfl | rfl <;> rfl
    · simp only [report0_events, List.mem_append, List.mem_cons, List.mem_singleton,
        List.not_mem_nil, or_false] at he
      rcases he with (rfl | rfl | rfl | rfl | rfl) | he
      · rfl
      · rfl
      · rfl
      · rfl
      · rfl
      · exact (preview0_not_release e (print_last_hidden_state_preview _ _ _ _ e he)).2
    · simp only [report1_events, List.mem_append, List.mem_cons, List.mem_singleton,
        List.not_mem_nil, or_false] at he
      rcases he with (rfl | rfl | rfl | rfl | rfl) | he
      · rfl
      · rfl
      · rfl
      · rfl
      · rfl
      · exact (preview1_not_release e (print_pooler_output_preview _ _ e he)).2
  · simp [inference_events]
  · simp [inference_events]

/-- C8, on the run of the demo runtime. -/
theorem teardown_release_order_witness :
    (main demo_ort 2 ["onnxdemo", "model.onnx"]).val = some 0
    ∧ ∃ (env session_options session : Handle) (a : Answers) (pre : List Event),
      StartupAnswered demo_ort env session_options session ∧ Answered demo_ort a
      ∧ (main demo_ort 2 ["onnxdemo", "model.onnx"]).trace
          = pre ++ [.ReleaseValue a.input_ids, .ReleaseValue a.attention_mask,
              .ReleaseValue a.token_type_ids, .ReleaseTensorTypeAndShapeInfo a.shape_info1,
              .ReleaseSessionOptions session_options, .ReleaseSession session,
              .ReleaseEnv env, .free "tokens"]
      ∧ (∀ e ∈ pre, is_teardown e = false)
      ∧ Event.call (.CreateTensorWithDataAsOrtValue a.memory_info main_tokens
          (7 * sizeof_int64_t) [1, 7] 2 "input_ids") none ∈ pre
      ∧ Event.call (.Run session ["input_ids", "attention_mask", "token_type_ids"]
          [a.input_ids, a.attention_mask, a.token_type_ids] 3
          ["last_hidden_state", "pooler_output"] 2) none ∈ pre :=
  ⟨demo_main_returns,
    teardown_release_order demo_ort 2 ["onnxdemo", "model.onnx"] 0 demo_main_returns⟩

end Onnxdemo
